import Mathlib

/- Shallow embedding of the procedural terrain and resource generation
subsystem of the Second Earth repository: the grid class of
modules/interface_types/grids.py, the mini_grid coordinate conversions, and
the TDG terrain classifier of TDG/terrains.py.

Randomness is modelled by an infinite tape of natural numbers.  Each call to
a stdlib random primitive reads one tape cell (random.sample of a list of
length n reads n cells) and reduces it modulo the size of the requested
range, so every realizable behaviour of the Python program corresponds to
some tape, and theorems quantify over all tapes.  Fallible operations
(KeyError, ValueError on an empty randrange, IndexError on an empty list,
AttributeError on a missing cell) are embedded in Except. -/

/-- Random tape: an arbitrary infinite sequence of draws. -/
abbrev Tape := Nat → Nat

/-- Saved form of one cell, as placed into the cell_list entry of the grid
save dictionary. -/
structure CellRecord where
  cx : Nat
  cy : Nat
  terrain : String
  resource : String
  parameters : List (String × Nat)
  features : List String

/-- Modelled from the spec: the cell class of modules/interface_types/cells.py
is not under src.  Per the spec data model, a cell holds grid coordinates, a
resolved terrain name with unset sentinel "none", a resource name with empty
sentinel "none", a parameter tuple, a set of active terrain features, the
saved record it was created from (if loaded), and a building-adjacency test
abstracted here as a stored flag. -/
structure CellData where
  x : Nat
  y : Nat
  terrain : String
  resource : String
  parameters : List (String × Nat)
  features : List String
  save_dict : Option CellRecord
  adjacent_to_buildings : Bool

/-- State of a grid: coordinate dimensions, grid type tag, the from_save flag
and the cell contents, indexed like cell_list x y in the source. -/
structure GridM where
  coordinate_width : Nat
  coordinate_height : Nat
  grid_type : String
  from_save : Bool
  cells : Nat → Nat → CellData

/-- Modelled from the spec: the cell constructor of cells.py is not under
src.  A newly created cell starts with unset terrain "none", no resource, no
parameters and no features. -/
def blank_cell (x y : Nat) : CellData :=
  { x := x, y := y, terrain := "none", resource := "none", parameters := [],
    features := [], save_dict := none, adjacent_to_buildings := false }

/-- Grid construction for a non-loaded grid (grid.create_cells): every
coordinate receives a fresh blank cell. -/
def create_grid (w h : Nat) (gt : String) : GridM :=
  { coordinate_width := w, coordinate_height := h, grid_type := gt,
    from_save := false, cells := fun x y => blank_cell x y }

/-- Functional update of one cell of the grid. -/
def set_cell (g : GridM) (x y : Nat) (c : CellData) : GridM :=
  { g with cells := fun a b => if a = x ∧ b = y then c else g.cells a b }

/-- terrain_handler.set_terrain as it acts on the embedded state: overwrite
the terrain name of the cell at the given coordinates. -/
def set_terrain (g : GridM) (x y : Nat) (t : String) : GridM :=
  set_cell g x y { g.cells x y with terrain := t }

/-- grid.find_cell: returns the cell at in-range coordinates and none
otherwise (lines 401-419 of grids.py). -/
def find_cell (g : GridM) (x y : Nat) : Option CellData :=
  if x < g.coordinate_width ∧ y < g.coordinate_height then some (g.cells x y)
  else none

/-- Iteration order of grid.get_flat_cell_list: the 2-dimensional cell list
is a list of columns indexed by x, so the flattening enumerates x in the
outer position and y in the inner position. -/
def coords_list (w h : Nat) : List (Nat × Nat) :=
  (List.range w).flatMap (fun x => (List.range h).map (fun y => (x, y)))

/-- get_flat_cell_list of the embedded grid. -/
def flat_cells (g : GridM) : List CellData :=
  (coords_list g.coordinate_width g.coordinate_height).map
    (fun c => g.cells c.1 c.2)

/-- Modelled from the spec: cell.find_adjacent_cells of cells.py is not under
src.  Per the spec, adjacency is the 4-neighbor cardinal list with
wrap-around arithmetic, neighbor at offset (dx, dy) living at
((x+dx) mod width, (y+dy) mod height). -/
def adjacent_coords (w h x y : Nat) : List (Nat × Nat) :=
  [((x + 1) % w, y), ((x + w - 1) % w, y), (x, (y + 1) % h), (x, (y + h - 1) % h)]

/-- Python random.choice from a string list, reading one tape cell.  The
caller guards emptiness; on an empty list the default "none" stands in. -/
def pychoice (tape : Tape) (k : Nat) (l : List String) : String :=
  l.getD (tape k % l.length) "none"

/-- Recursion for pysample: repeatedly draw an index into the remaining
elements and remove the drawn element, reading one tape cell per element. -/
def pysample_go (tape : Tape) : Nat → List (Nat × Nat) → Nat → List (Nat × Nat)
  | 0, _, _ => []
  | n + 1, l, k =>
      let i := tape k % l.length
      l.getD i (0, 0) :: pysample_go tape n (l.eraseIdx i) (k + 1)

/-- Python random.sample(l, len(l)): a tape-determined permutation of the
list, consuming one tape cell per element. -/
def pysample (tape : Tape) (k : Nat) (l : List (Nat × Nat)) :
    List (Nat × Nat) × Nat :=
  (pysample_go tape l.length l k, k + l.length)

/-- Python round of n / d on naturals with round-half-to-even tie breaking,
as computed by round(area / 24) and round(area / 12) in generate_terrain.
For these denominators the float value is never close enough to a half-way
point to round differently from the exact rational. -/
def pyround (n d : Nat) : Nat :=
  if 2 * (n % d) < d then n / d
  else if d < 2 * (n % d) then n / d + 1
  else if (n / d) % 2 = 0 then n / d else n / d + 1

/-- Loop body of grid.make_random_terrain_worm (lines 579-591): while the
counter has not reached the worm length, draw a direction from randrange(1,5)
(1 north, 2 east, 3 south, 4 west), step with wrap-around, and set the
terrain of the reached cell.  Subtracting one modulo the dimension is
rendered as adding dimension minus one, which agrees with the Python
remainder on the in-range coordinates that occur.  A missing cell
(find_cell returning None, then AttributeError on set_terrain) aborts. -/
def worm_steps (terrain : String) (tape : Tape) :
    Nat → Nat → Nat → Nat → GridM → Except String (GridM × Nat)
  | 0, _, _, k, g => .ok (g, k)
  | n + 1, x, y, k, g =>
      let d := 1 + tape k % 4
      let x2 := if d = 2 then (x + 1) % g.coordinate_width
                else if d = 4 then (x + g.coordinate_width - 1) % g.coordinate_width
                else x
      let y2 := if d = 3 then (y + 1) % g.coordinate_height
                else if d = 1 then (y + g.coordinate_height - 1) % g.coordinate_height
                else y
      match find_cell g x2 y2 with
      | none => .error "AttributeError"
      | some _ => worm_steps terrain tape n x2 y2 (k + 1) (set_terrain g x2 y2 terrain)

/-- grid.make_random_terrain_worm (lines 561-591): draw a starting cell, a
worm length from randrange(min_len, max_len + 1), and a terrain from the
possible terrain list, set the starting cell, then walk.  Each empty random
range or empty list is a Python error. -/
def make_random_terrain_worm (min_len max_len : Nat) (possible_terrains : List String)
    (tape : Tape) (k : Nat) (g : GridM) : Except String (GridM × Nat) :=
  if g.coordinate_width = 0 ∨ g.coordinate_height = 0 then .error "ValueError"
  else
    let start_x := tape k % g.coordinate_width
    let start_y := tape (k + 1) % g.coordinate_height
    if max_len + 1 ≤ min_len then .error "ValueError"
    else
      let worm_length := min_len + tape (k + 2) % (max_len + 1 - min_len)
      if possible_terrains.isEmpty then .error "IndexError"
      else
        let terrain := pychoice tape (k + 3) possible_terrains
        match find_cell g start_x start_y with
        | none => .error "AttributeError"
        | some _ =>
            worm_steps terrain tape worm_length start_x start_y (k + 4)
              (set_terrain g start_x start_y terrain)

/-- The worm loop of grid.generate_terrain (lines 131-136): run the given
number of worms, each recomputing its length bounds from the grid area. -/
def worm_phase (tl : List String) (tape : Tape) :
    Nat → Nat → GridM → Except String (GridM × Nat)
  | 0, k, g => .ok (g, k)
  | n + 1, k, g =>
      let area := g.coordinate_width * g.coordinate_height
      match make_random_terrain_worm (pyround area 24) (pyround area 12) tl tape k g with
      | .error e => .error e
      | .ok (g2, k2) => worm_phase tl tape n k2 g2

/-- Neighbor loop of the consensus step (lines 140-146): for every neighbor
in the sampled order whose current terrain is set, overwrite the terrain of
the processed cell with that neighbor terrain.  The loop has no break, so
every set neighbor writes in turn. -/
def adopt_fold (x y : Nat) (shuffled : List (Nat × Nat)) (g : GridM) : GridM :=
  shuffled.foldl
    (fun gc nb =>
      if (gc.cells nb.1 nb.2).terrain ≠ "none" then
        set_terrain gc x y ((gc.cells nb.1 nb.2).terrain)
      else gc) g

/-- Terrain of the last neighbor in the given order whose terrain is set in
the given grid state, if any: the value the neighbor loop leaves behind. -/
def adopt_last (g : GridM) (shuffled : List (Nat × Nat)) : Option String :=
  shuffled.foldl
    (fun acc nb =>
      if (g.cells nb.1 nb.2).terrain ≠ "none" then
        some ((g.cells nb.1 nb.2).terrain)
      else acc) none

/-- Consensus step for one cell of grid.generate_terrain (lines 138-150): if
the cell is still unset, iterate its adjacency list in a sampled order and,
for every neighbor whose current terrain is set, overwrite the cell terrain
with that neighbor terrain (the loop has no break); if the cell is still
unset afterwards, assign random.choice of the terrain list. -/
def consensus_cell (tl : List String) (tape : Tape) (x y : Nat) (k : Nat)
    (g : GridM) : Except String (GridM × Nat) :=
  if (g.cells x y).terrain ≠ "none" then .ok (g, k)
  else
    let s := pysample tape k (adjacent_coords g.coordinate_width g.coordinate_height x y)
    let g1 := adopt_fold x y s.1 g
    if (g1.cells x y).terrain = "none" then
      if tl.isEmpty then .error "IndexError"
      else .ok (set_terrain g1 x y (pychoice tape s.2 tl), s.2 + 1)
    else .ok (g1, s.2)

/-- The consensus pass of grid.generate_terrain: visit every cell in flat
iteration order and apply the consensus step. -/
def consensus_pass (tl : List String) (tape : Tape) :
    List (Nat × Nat) → Nat → GridM → Except String (GridM × Nat)
  | [], k, g => .ok (g, k)
  | c :: rest, k, g =>
      match consensus_cell tl tape c.1 c.2 k g with
      | .error e => .error e
      | .ok (g2, k2) => consensus_pass tl tape rest k2 g2

/-- grid.generate_terrain (lines 117-150): area // 5 worms followed by the
consensus pass.  The terrain list argument is the value of
constants.terrain_list at call time (after the optional append of "water"
when the enable_oceans effect is active). -/
def generate_terrain (tl : List String) (tape : Tape) (g : GridM) :
    Except String (GridM × Nat) :=
  match worm_phase tl tape (g.coordinate_width * g.coordinate_height / 5) 0 g with
  | .error e => .error e
  | .ok (g1, k1) =>
      consensus_pass tl tape
        (coords_list g1.coordinate_width g1.coordinate_height) k1 g1

/-- Cumulative-weight rendering of one terrain entry of the resource
frequency table, as built by grid.create_resource_list_dict (lines 507-532):
each resource is paired with the running total of the weights so far. -/
def cumulate : List (String × Nat) → Nat → List (String × Nat)
  | [], _ => []
  | (r, f) :: rest, acc => (r, acc + f) :: cumulate rest (acc + f)

/-- grid.create_resource_list_dict: map every terrain of the frequency table
to its cumulative-weight resource list. -/
def create_resource_list_dict (freqs : List (String × List (String × Nat))) :
    List (String × List (String × Nat)) :=
  freqs.map (fun p => (p.1, cumulate p.2 0))

/-- Total weight of a resource frequency list. -/
def sum_weights (ws : List (String × Nat)) : Nat :=
  (ws.map (fun e => e.2)).sum

/-- The linear scan of grid.set_resources: the first entry of the cumulative
list whose cumulative weight strictly exceeds the draw. -/
def select_resource (lst : List (String × Nat)) (draw : Nat) :
    Option (String × Nat) :=
  lst.find? (fun e => decide (draw < e.2))

/-- Index form of the same scan, for counting draws per entry. -/
def select_idx (lst : List (String × Nat)) (draw : Nat) : Nat :=
  lst.findIdx (fun e => decide (draw < e.2))

/-- grid.generate_terrain_features (lines 152-167): for every registered
terrain feature type, attach the feature to every cell its placement
predicate accepts.  The feature type registry is an external configuration,
passed here as a list of named predicates. -/
def generate_terrain_features (fts : List (String × (CellData → Bool)))
    (g : GridM) : GridM :=
  fts.foldl
    (fun ga ft =>
      (coords_list ga.coordinate_width ga.coordinate_height).foldl
        (fun gb c =>
          if ft.2 (gb.cells c.1 c.2) then
            set_cell gb c.1 c.2
              { gb.cells c.1 c.2 with
                  features := (gb.cells c.1 c.2).features ++ [ft.1] }
          else gb) ga) g

/-- Resource assignment for one cell in the non-loaded branch of
grid.set_resources (lines 546-558): KeyError when the terrain is missing
from the table, IndexError when its list is empty, ValueError when
randrange receives an empty range, otherwise draw and linear-scan. -/
def set_resources_cell (rld : List (String × List (String × Nat)))
    (tape : Tape) (c : Nat × Nat) (k : Nat) (g : GridM) :
    Except String (GridM × Nat) :=
  match List.lookup (g.cells c.1 c.2).terrain rld with
  | none => .error "KeyError"
  | some lst =>
      match lst.getLast? with
      | none => .error "IndexError"
      | some last =>
          if last.2 = 0 then .error "ValueError"
          else
            let draw := tape k % last.2
            match select_resource lst draw with
            | some e =>
                .ok (set_cell g c.1 c.2 { g.cells c.1 c.2 with resource := e.1 }, k + 1)
            | none => .ok (g, k + 1)

/-- Fold of the per-cell resource assignment over the flat cell order. -/
def set_resources_pass (rld : List (String × List (String × Nat)))
    (tape : Tape) : List (Nat × Nat) → Nat → GridM → Except String (GridM × Nat)
  | [], k, g => .ok (g, k)
  | c :: rest, k, g =>
      match set_resources_cell rld tape c k g with
      | .error e => .error e
      | .ok (g2, k2) => set_resources_pass rld tape rest k2 g2

/-- The from_save branch of grid.set_resources (lines 543-545): restore each
cell resource from its saved record; a cell without a saved record is the
Python error of indexing the string "none". -/
def restore_resources_pass :
    List (Nat × Nat) → GridM → Except String GridM
  | [], g => .ok g
  | c :: rest, g =>
      match (g.cells c.1 c.2).save_dict with
      | none => .error "TypeError"
      | some r =>
          restore_resources_pass rest
            (set_cell g c.1 c.2 { g.cells c.1 c.2 with resource := r.resource })

/-- grid.set_resources (lines 534-559): restore saved resources for a loaded
grid; otherwise build the cumulative table, assign a weighted random
resource to every cell, and finally place terrain features. -/
def set_resources (freqs : List (String × List (String × Nat)))
    (fts : List (String × (CellData → Bool))) (tape : Tape) (k : Nat)
    (g : GridM) : Except String (GridM × Nat) :=
  if g.from_save then
    match restore_resources_pass
        (coords_list g.coordinate_width g.coordinate_height) g with
    | .error e => .error e
    | .ok g2 => .ok (g2, k)
  else
    let rld := create_resource_list_dict freqs
    match set_resources_pass rld tape
        (coords_list g.coordinate_width g.coordinate_height) k g with
    | .error e => .error e
    | .ok (g2, k2) => .ok (generate_terrain_features fts g2, k2)

/-- Modelled from the spec: cell.to_save_dict of cells.py is not under src.
Per the spec save payload, the record of a cell carries coordinates, terrain
name, resource name, parameter values and feature records. -/
def cell_to_save_dict (c : CellData) : CellRecord :=
  { cx := c.x, cy := c.y, terrain := c.terrain, resource := c.resource,
    parameters := c.parameters, features := c.features }

/-- grid.to_save_dict (lines 98-115): the grid type tag plus the list of
cell records in flat iteration order. -/
def to_save_dict (g : GridM) : String × List CellRecord :=
  (g.grid_type,
    (coords_list g.coordinate_width g.coordinate_height).map
      (fun c => cell_to_save_dict (g.cells c.1 c.2)))

/-- Modelled from the spec: the cell constructor taking a save dictionary
(cells.py) is not under src.  Loading reconstructs coordinates, terrain,
parameters and features directly from the saved record and keeps the record
for the later resource restoration pass; the resource itself is assigned by
the from_save branch of set_resources. -/
def cell_from_save (r : CellRecord) : CellData :=
  { x := r.cx, y := r.cy, terrain := r.terrain, resource := "none",
    parameters := r.parameters, features := r.features, save_dict := some r,
    adjacent_to_buildings := false }

/-- grid.load_cells (lines 472-485): create a cell from every record at the
coordinates the record names, over an initially empty cell array.
Adjacency is recomputed structurally from the coordinates afterwards. -/
def load_cells (w h : Nat) (gt : String) (records : List CellRecord) : GridM :=
  { coordinate_width := w, coordinate_height := h, grid_type := gt,
    from_save := true,
    cells :=
      records.foldl
        (fun cs r => fun a b =>
          if a = r.cx ∧ b = r.cy then cell_from_save r else cs a b)
        (fun a b => blank_cell a b) }

/-- grid.choose_cell (lines 421-444): filter the flat cell list by the
requirement dictionary and draw a random element; when no cell qualifies the
"none" sentinel is drawn instead, rendered here as Option.none. -/
def choose_cell (g : GridM) (allowed_terrains : List String)
    (ocean_allowed nearby_buildings_allowed : Bool) (tape : Tape) (k : Nat) :
    Option CellData :=
  let possible := (flat_cells g).filter
    (fun c =>
      allowed_terrains.contains c.terrain &&
      (ocean_allowed || !(c.y = 0 : Bool)) &&
      (nearby_buildings_allowed || !c.adjacent_to_buildings))
  if possible.isEmpty then none
  else some (possible.getD (tape k % possible.length) (blank_cell 0 0))

/-- One parameter range of a TDG terrain definition. -/
structure TDGParameter where
  pmin : Int
  pmax : Int

/-- Modelled from the spec: parameters.py of the TDG package is not under
src.  Per the spec, the in-bounds test of a parameter range is inclusive
containment in the closed interval from its minimum to its maximum. -/
def parameter_in_bounds (p : TDGParameter) (v : Int) : Bool :=
  decide (p.pmin ≤ v) && decide (v ≤ p.pmax)

/-- A TDG terrain definition: a name and a range per parameter type. -/
structure TDGTerrain where
  name : String
  parameter_dict : String → TDGParameter

/-- terrain.in_bounds of TDG/terrains.py (lines 42-47): return False on the
first parameter type whose value leaves the range, True otherwise. -/
def in_bounds (t : TDGTerrain) (parameter_types : List String)
    (terrain_dict : String → Int) : Bool :=
  parameter_types.all
    (fun pt => parameter_in_bounds (t.parameter_dict pt) (terrain_dict pt))

/-- Modelled from the spec: utility.get_terrain of the TDG package is not
under src.  Per the spec, classification iterates the terrain definition
list in registration order and returns the first definition whose in-bounds
test accepts the tuple, and a no-match sentinel (here Option.none)
otherwise. -/
def get_terrain (parameter_types : List String) (terrain_dict : String → Int) :
    List TDGTerrain → Option TDGTerrain
  | [] => none
  | t :: rest =>
      if in_bounds t parameter_types terrain_dict then some t
      else get_terrain parameter_types terrain_dict rest

/-- Python round(n / 2) on an integer n with round-half-to-even tie
breaking, as used on the odd-or-even span coordinate_width - 1 by the
mini_grid conversions. -/
def pyround_half (n : Int) : Int :=
  if n % 2 = 0 then n / 2
  else if (n / 2) % 2 = 0 then n / 2 else n / 2 + 1

/-- mini_grid.get_main_grid_coordinates (lines 709-732): unwrap the centered
offset and adjust once by the attached grid dimension when out of range. -/
def get_main_grid_coordinates (pw ph cw ch cx cy mx my : Int) : Int × Int :=
  let ax := cx + mx - pyround_half (cw - 1)
  let ay := cy + my - pyround_half (ch - 1)
  ((if ax < 0 then ax + pw else if pw ≤ ax then ax - pw else ax),
   (if ay < 0 then ay + ph else if ph ≤ ay then ay - ph else ay))

/-- mini_grid.get_mini_grid_coordinates (lines 734-750).  On the x line the
source parenthesizes round(coordinate_width - 1) / 2, a float halved after
rounding and truncated toward zero by int, rendered with Int.tdiv on the
doubled numerator; the y line rounds the halved span as on the main
conversion.  Both results are reduced modulo the mini grid dimension. -/
def get_mini_grid_coordinates (cw ch cx cy ox oy : Int) : Int × Int :=
  (Int.tdiv (2 * (ox - cx) + (cw - 1)) 2 % cw,
   (oy - cy + pyround_half (ch - 1)) % ch)

/-- Concrete two-by-two grid for exercising the consensus step: the east
neighbor of the origin holds terrain "a", the north neighbor terrain "b",
and every other cell (the origin included) is unset. -/
def c2_grid : GridM :=
  { coordinate_width := 2, coordinate_height := 2, grid_type := "g",
    from_save := false,
    cells := fun a b =>
      if a = 1 ∧ b = 0 then { blank_cell 1 0 with terrain := "a" }
      else if a = 0 ∧ b = 1 then { blank_cell 0 1 with terrain := "b" }
      else blank_cell a b }

/- Basic evaluation lemmas for the state updates. -/

theorem set_cell_eval (g : GridM) (x y : Nat) (c : CellData) (a b : Nat) :
    (set_cell g x y c).cells a b = if a = x ∧ b = y then c else g.cells a b := rfl

theorem set_cell_width (g : GridM) (x y : Nat) (c : CellData) :
    (set_cell g x y c).coordinate_width = g.coordinate_width := rfl

theorem set_cell_height (g : GridM) (x y : Nat) (c : CellData) :
    (set_cell g x y c).coordinate_height = g.coordinate_height := rfl

theorem set_terrain_terrain (g : GridM) (x y : Nat) (t : String) (a b : Nat) :
    ((set_terrain g x y t).cells a b).terrain =
      if a = x ∧ b = y then t else (g.cells a b).terrain := by
  unfold set_terrain set_cell
  by_cases h : a = x ∧ b = y
  · simp [h]
  · simp [h]

theorem set_terrain_ne (g : GridM) (x y : Nat) (t : String) (a b : Nat)
    (h : ¬(a = x ∧ b = y)) : (set_terrain g x y t).cells a b = g.cells a b := by
  unfold set_terrain set_cell
  simp [h]

theorem set_terrain_self (g : GridM) (x y : Nat) (t : String) :
    ((set_terrain g x y t).cells x y).terrain = t := by
  rw [set_terrain_terrain]
  simp

theorem pychoice_mem (tape : Tape) (k : Nat) (l : List String) (hl : l ≠ []) :
    pychoice tape k l ∈ l := by
  have hlen : 0 < l.length := List.length_pos.mpr hl
  have hidx : tape k % l.length < l.length := Nat.mod_lt _ hlen
  unfold pychoice
  rw [List.getD_eq_getElem l "none" hidx]
  exact l.getElem_mem hidx

/- Arithmetic facts about the Python rounding used by generate_terrain. -/

theorem pyround_24_le_12 (n : Nat) : pyround n 24 ≤ pyround n 12 := by
  unfold pyround
  repeat' split
  all_goals omega

theorem pyround_pos_span (n : Nat) : pyround n 24 ≤ pyround n 12 ∧
    0 < pyround n 12 + 1 - pyround n 24 := by
  have h := pyround_24_le_12 n
  exact ⟨h, by omega⟩

/- Worm phase lemmas: the walk stays in range, succeeds, consumes a known
number of tape cells, and only writes the chosen terrain. -/

theorem worm_steps_spec (t : String) (tape : Tape) :
    ∀ (n x y k : Nat) (g : GridM), x < g.coordinate_width →
      y < g.coordinate_height →
      ∃ g2, worm_steps t tape n x y k g = .ok (g2, k + n) ∧
        g2.coordinate_width = g.coordinate_width ∧
        g2.coordinate_height = g.coordinate_height ∧
        ∀ a b, (g2.cells a b).terrain = (g.cells a b).terrain ∨
          (g2.cells a b).terrain = t := by
  intro n
  induction n with
  | zero =>
      intro x y k g hx hy
      exact ⟨g, rfl, rfl, rfl, fun a b => Or.inl rfl⟩
  | succ m ih =>
      intro x y k g hx hy
      have hw : 0 < g.coordinate_width := Nat.lt_of_le_of_lt (Nat.zero_le x) hx
      have hh : 0 < g.coordinate_height := Nat.lt_of_le_of_lt (Nat.zero_le y) hy
      simp only [worm_steps]
      set d := 1 + tape k % 4 with hd
      set x2 := if d = 2 then (x + 1) % g.coordinate_width
                else if d = 4 then (x + g.coordinate_width - 1) % g.coordinate_width
                else x with hx2def
      set y2 := if d = 3 then (y + 1) % g.coordinate_height
                else if d = 1 then (y + g.coordinate_height - 1) % g.coordinate_height
                else y with hy2def
      have hx2 : x2 < g.coordinate_width := by
        rw [hx2def]
        split
        · exact Nat.mod_lt _ hw
        · split
          · exact Nat.mod_lt _ hw
          · exact hx
      have hy2 : y2 < g.coordinate_height := by
        rw [hy2def]
        split
        · exact Nat.mod_lt _ hh
        · split
          · exact Nat.mod_lt _ hh
          · exact hy
      have hfc : find_cell g x2 y2 = some (g.cells x2 y2) := by
        unfold find_cell
        exact if_pos ⟨hx2, hy2⟩
      rw [hfc]
      obtain ⟨g2, heq, hW, hH, hT⟩ :=
        ih x2 y2 (k + 1) (set_terrain g x2 y2 t) hx2 hy2
      have harith : k + 1 + m = k + (m + 1) := by omega
      rw [harith] at heq
      refine ⟨g2, heq, hW, hH, fun a b => ?_⟩
      rcases hT a b with h1 | h1
      · rw [h1, set_terrain_terrain]
        by_cases hab : a = x2 ∧ b = y2
        · rw [if_pos hab]; exact Or.inr rfl
        · rw [if_neg hab]; exact Or.inl rfl
      · exact Or.inr h1

theorem make_random_terrain_worm_spec (min_len max_len : Nat)
    (tl : List String) (tape : Tape) (k : Nat) (g : GridM)
    (hw : 0 < g.coordinate_width) (hh : 0 < g.coordinate_height)
    (hspan : min_len ≤ max_len) (htl : tl ≠ []) :
    ∃ g2, make_random_terrain_worm min_len max_len tl tape k g =
        .ok (g2, k + 4 + (min_len + tape (k + 2) % (max_len + 1 - min_len))) ∧
      g2.coordinate_width = g.coordinate_width ∧
      g2.coordinate_height = g.coordinate_height ∧
      ∀ a b, (g2.cells a b).terrain = (g.cells a b).terrain ∨
        (g2.cells a b).terrain ∈ tl := by
  unfold make_random_terrain_worm
  rw [if_neg (by omega)]
  rw [if_neg (by omega)]
  rw [if_neg (by simpa [List.isEmpty_iff] using htl)]
  have hsx : tape k % g.coordinate_width < g.coordinate_width := Nat.mod_lt _ hw
  have hsy : tape (k + 1) % g.coordinate_height < g.coordinate_height :=
    Nat.mod_lt _ hh
  have hfc : find_cell g (tape k % g.coordinate_width)
      (tape (k + 1) % g.coordinate_height) =
      some (g.cells (tape k % g.coordinate_width)
        (tape (k + 1) % g.coordinate_height)) := by
    unfold find_cell
    exact if_pos ⟨hsx, hsy⟩
  rw [hfc]
  obtain ⟨g2, heq, hW, hH, hT⟩ := worm_steps_spec (pychoice tape (k + 3) tl) tape
    (min_len + tape (k + 2) % (max_len + 1 - min_len))
    (tape k % g.coordinate_width) (tape (k + 1) % g.coordinate_height) (k + 4)
    (set_terrain g (tape k % g.coordinate_width)
      (tape (k + 1) % g.coordinate_height) (pychoice tape (k + 3) tl))
    hsx hsy
  have harith : k + 4 + (min_len + tape (k + 2) % (max_len + 1 - min_len)) =
      k + 4 + (min_len + tape (k + 2) % (max_len + 1 - min_len)) := rfl
  refine ⟨g2, heq, hW, hH, fun a b => ?_⟩
  have hmem : pychoice tape (k + 3) tl ∈ tl := pychoice_mem tape (k + 3) tl htl
  rcases hT a b with h1 | h1
  · rw [h1, set_terrain_terrain]
    by_cases hab : a = tape k % g.coordinate_width ∧
        b = tape (k + 1) % g.coordinate_height
    · rw [if_pos hab]; exact Or.inr hmem
    · rw [if_neg hab]; exact Or.inl rfl
  · rw [h1]; exact Or.inr hmem

theorem worm_phase_spec (tl : List String) (tape : Tape) :
    ∀ (n k : Nat) (g : GridM), 0 < g.coordinate_width →
      0 < g.coordinate_height → tl ≠ [] →
      ∃ (g2 : GridM) (k2 : Nat) (lens : List Nat),
        worm_phase tl tape n k g = .ok (g2, k2) ∧
        g2.coordinate_width = g.coordinate_width ∧
        g2.coordinate_height = g.coordinate_height ∧
        lens.length = n ∧
        (∀ l ∈ lens,
          pyround (g.coordinate_width * g.coordinate_height) 24 ≤ l ∧
          l ≤ pyround (g.coordinate_width * g.coordinate_height) 12) ∧
        k2 = k + (lens.map (fun l => l + 4)).sum ∧
        ∀ a b, (g2.cells a b).terrain = (g.cells a b).terrain ∨
          (g2.cells a b).terrain ∈ tl := by
  intro n
  induction n with
  | zero =>
      intro k g hw hh htl
      exact ⟨g, k, [], rfl, rfl, rfl, rfl, (fun l hl => absurd hl (by simp)),
        (by simp), fun a b => Or.inl rfl⟩
  | succ m ih =>
      intro k g hw hh htl
      simp only [worm_phase]
      set area := g.coordinate_width * g.coordinate_height with harea
      obtain ⟨g1, heq1, hW1, hH1, hT1⟩ :=
        make_random_terrain_worm_spec (pyround area 24) (pyround area 12)
          tl tape k g hw hh (pyround_24_le_12 area) htl
      rw [heq1]
      obtain ⟨g2, k2, lens, heq2, hW2, hH2, hlen, hbnd, hsum, hT2⟩ :=
        ih (k + 4 + (pyround area 24 +
          tape (k + 2) % (pyround area 12 + 1 - pyround area 24))) g1
          (hW1 ▸ hw) (hH1 ▸ hh) htl
      refine ⟨g2, k2,
        (pyround area 24 + tape (k + 2) % (pyround area 12 + 1 - pyround area 24))
          :: lens, heq2, (by rw [hW2, hW1]), (by rw [hH2, hH1]),
        (by simp [hlen]), ?_, ?_, ?_⟩
      · intro l hl
        have hdim : g1.coordinate_width * g1.coordinate_height = area := by
          rw [hW1, hH1]
        rcases List.mem_cons.mp hl with h | h
        · subst h
          constructor
          · omega
          · have hspan := pyround_24_le_12 area
            have : tape (k + 2) % (pyround area 12 + 1 - pyround area 24) <
                pyround area 12 + 1 - pyround area 24 := Nat.mod_lt _ (by omega)
            omega
        · have hb := hbnd l h
          rw [hdim] at hb
          exact hb
      · rw [hsum]
        simp
        omega
      · intro a b
        rcases hT2 a b with h1 | h1
        · rw [h1]; exact hT1 a b
        · exact Or.inr h1

/- Consensus pass lemmas.  The neighbor loop writes only the processed cell,
and its final terrain is the last set neighbor in the inspected order. -/

theorem adopt_fold_nil (x y : Nat) (g : GridM) : adopt_fold x y [] g = g := rfl

theorem adopt_fold_cons (x y : Nat) (nb : Nat × Nat) (L : List (Nat × Nat))
    (g : GridM) :
    adopt_fold x y (nb :: L) g =
      adopt_fold x y L
        (if (g.cells nb.1 nb.2).terrain ≠ "none" then
          set_terrain g x y ((g.cells nb.1 nb.2).terrain)
        else g) := rfl

theorem adopt_fold_go (x y : Nat) (g0 : GridM)
    (h0 : (g0.cells x y).terrain = "none") :
    ∀ (L : List (Nat × Nat)) (g : GridM) (acc : Option String),
      (∀ a b, ¬(a = x ∧ b = y) → g.cells a b = g0.cells a b) →
      ((acc = none ∧ (g.cells x y).terrain = "none") ∨
        (∃ v, acc = some v ∧ v ≠ "none" ∧ (g.cells x y).terrain = v)) →
      (∀ a b, ¬(a = x ∧ b = y) →
        (adopt_fold x y L g).cells a b = g0.cells a b) ∧
      (adopt_fold x y L g).coordinate_width = g.coordinate_width ∧
      (adopt_fold x y L g).coordinate_height = g.coordinate_height ∧
      ((L.foldl (fun acc2 nb =>
          if (g0.cells nb.1 nb.2).terrain ≠ "none" then
            some ((g0.cells nb.1 nb.2).terrain) else acc2) acc = none ∧
          ((adopt_fold x y L g).cells x y).terrain = "none") ∨
        (∃ v, L.foldl (fun acc2 nb =>
          if (g0.cells nb.1 nb.2).terrain ≠ "none" then
            some ((g0.cells nb.1 nb.2).terrain) else acc2) acc = some v ∧
          v ≠ "none" ∧ ((adopt_fold x y L g).cells x y).terrain = v)) := by
  intro L
  induction L with
  | nil =>
      intro g acc hag hacc
      refine ⟨hag, rfl, rfl, ?_⟩
      rcases hacc with ⟨h1, h2⟩ | ⟨v, h1, h2, h3⟩
      · exact Or.inl ⟨h1, h2⟩
      · exact Or.inr ⟨v, h1, h2, h3⟩
  | cons nb L2 ih =>
      intro g acc hag hacc
      rw [adopt_fold_cons]
      simp only [List.foldl_cons]
      by_cases hco : nb.1 = x ∧ nb.2 = y
      · have hg0nb : (g0.cells nb.1 nb.2).terrain = "none" := by
          rw [hco.1, hco.2]; exact h0
        rcases hacc with ⟨hacc1, hacc2⟩ | ⟨v, hv1, hv2, hv3⟩
        · have hgnb : (g.cells nb.1 nb.2).terrain = "none" := by
            rw [hco.1, hco.2]; exact hacc2
          rw [if_neg (by simp [hgnb]), if_neg (by simp [hg0nb])]
          exact ih g acc hag (Or.inl ⟨hacc1, hacc2⟩)
        · have hgnb : (g.cells nb.1 nb.2).terrain = v := by
            rw [hco.1, hco.2]; exact hv3
          rw [if_pos (by rw [hgnb]; exact hv2), if_neg (by simp [hg0nb])]
          refine ih (set_terrain g x y ((g.cells nb.1 nb.2).terrain)) acc ?_ ?_
          · intro a b hab
            exact (set_terrain_ne _ _ _ _ _ _ hab).trans (hag a b hab)
          · right
            exact ⟨v, hv1, hv2, by rw [set_terrain_self, hgnb]⟩
      · have hnb : g.cells nb.1 nb.2 = g0.cells nb.1 nb.2 := hag nb.1 nb.2 hco
        by_cases hset : (g0.cells nb.1 nb.2).terrain = "none"
        · rw [if_neg (by simp [hnb, hset]), if_neg (by simp [hset])]
          exact ih g acc hag hacc
        · rw [if_pos (by rw [hnb]; exact hset), if_pos hset]
          refine ih (set_terrain g x y ((g.cells nb.1 nb.2).terrain))
            (some ((g0.cells nb.1 nb.2).terrain)) ?_ ?_
          · intro a b hab
            exact (set_terrain_ne _ _ _ _ _ _ hab).trans (hag a b hab)
          · right
            exact ⟨(g0.cells nb.1 nb.2).terrain, rfl, hset,
              by rw [set_terrain_self, hnb]⟩

theorem adopt_last_source (g : GridM) :
    ∀ (L : List (Nat × Nat)) (acc : Option String) (v : String),
      L.foldl (fun acc2 nb =>
        if (g.cells nb.1 nb.2).terrain ≠ "none" then
          some ((g.cells nb.1 nb.2).terrain) else acc2) acc = some v →
      acc = some v ∨ ∃ nb ∈ L, (g.cells nb.1 nb.2).terrain = v ∧ v ≠ "none" := by
  intro L
  induction L with
  | nil => intro acc v h; exact Or.inl h
  | cons nb L2 ih =>
      intro acc v h
      simp only [List.foldl_cons] at h
      by_cases hset : (g.cells nb.1 nb.2).terrain = "none"
      · rw [if_neg (by simp [hset])] at h
        rcases ih acc v h with h1 | ⟨nb2, hmem, hv⟩
        · exact Or.inl h1
        · exact Or.inr ⟨nb2, List.mem_cons_of_mem _ hmem, hv⟩
      · rw [if_pos hset] at h
        rcases ih _ v h with h1 | ⟨nb2, hmem, hv⟩
        · have hterr : (g.cells nb.1 nb.2).terrain = v := Option.some.inj h1
          exact Or.inr ⟨nb, List.mem_cons_self nb L2, hterr, hterr ▸ hset⟩
        · exact Or.inr ⟨nb2, List.mem_cons_of_mem _ hmem, hv⟩

theorem adopt_last_source_none (g : GridM) :
    ∀ (L : List (Nat × Nat)) (v : String),
      adopt_last g L = some v →
      ∃ nb ∈ L, (g.cells nb.1 nb.2).terrain = v ∧ v ≠ "none" := by
  intro L v h
  rcases adopt_last_source g L none v h with h1 | h1
  · cases h1
  · exact h1

theorem consensus_cell_spec (tl : List String) (tape : Tape) (x y k : Nat)
    (g : GridM) (htl : tl ≠ []) (hnone : "none" ∉ tl)
    (hI : ∀ a b, (g.cells a b).terrain = "none" ∨ (g.cells a b).terrain ∈ tl) :
    ∃ g1 k1, consensus_cell tl tape x y k g = .ok (g1, k1) ∧
      g1.coordinate_width = g.coordinate_width ∧
      g1.coordinate_height = g.coordinate_height ∧
      (∀ a b, ¬(a = x ∧ b = y) → g1.cells a b = g.cells a b) ∧
      ((g.cells x y).terrain ≠ "none" → g1.cells x y = g.cells x y) ∧
      (g1.cells x y).terrain ≠ "none" ∧ (g1.cells x y).terrain ∈ tl := by
  by_cases hset : (g.cells x y).terrain = "none"
  · unfold consensus_cell
    rw [if_neg (by simp [hset])]
    obtain ⟨hothers, hcw, hch, hres⟩ := adopt_fold_go x y g hset
      (pysample tape k
        (adjacent_coords g.coordinate_width g.coordinate_height x y)).1
      g none (fun a b _ => rfl) (Or.inl ⟨rfl, hset⟩)
    rcases hres with ⟨hfold, hterr⟩ | ⟨v, hfold, hvne, hterr⟩
    · rw [if_pos hterr, if_neg (by simpa [List.isEmpty_iff] using htl)]
      refine ⟨_, _, rfl, hcw, hch, ?_, ?_, ?_, ?_⟩
      · intro a b hab
        exact (set_terrain_ne _ _ _ _ _ _ hab).trans (hothers a b hab)
      · intro hc; exact absurd hset hc
      · rw [set_terrain_self]
        intro heq
        exact hnone (heq ▸ pychoice_mem tape _ tl htl)
      · rw [set_terrain_self]
        exact pychoice_mem tape _ tl htl
    · rw [if_neg (by rw [hterr]; exact hvne)]
      refine ⟨_, _, rfl, hcw, hch, hothers, ?_, ?_, ?_⟩
      · intro hc; exact absurd hset hc
      · rw [hterr]; exact hvne
      · rw [hterr]
        obtain ⟨nb, _, hnbterr, hvne2⟩ := adopt_last_source g _ none v hfold
          |>.resolve_left (by simp)
        rcases hI nb.1 nb.2 with h1 | h1
        · exact absurd (hnbterr ▸ h1 : v = "none") hvne2
        · exact hnbterr ▸ h1
  · unfold consensus_cell
    rw [if_pos hset]
    exact ⟨g, k, rfl, rfl, rfl, fun a b _ => rfl, fun _ => rfl, hset,
      (hI x y).resolve_left hset⟩

theorem consensus_pass_spec (tl : List String) (tape : Tape) (htl : tl ≠ [])
    (hnone : "none" ∉ tl) :
    ∀ (L : List (Nat × Nat)) (k : Nat) (g : GridM),
      (∀ a b, (g.cells a b).terrain = "none" ∨ (g.cells a b).terrain ∈ tl) →
      ∃ g2 k2, consensus_pass tl tape L k g = .ok (g2, k2) ∧
        g2.coordinate_width = g.coordinate_width ∧
        g2.coordinate_height = g.coordinate_height ∧
        (∀ a b, (g.cells a b).terrain ≠ "none" → g2.cells a b = g.cells a b) ∧
        (∀ c ∈ L, (g2.cells c.1 c.2).terrain ≠ "none" ∧
          (g2.cells c.1 c.2).terrain ∈ tl) := by
  intro L
  induction L with
  | nil =>
      intro k g hI
      exact ⟨g, k, rfl, rfl, rfl, fun a b _ => rfl,
        fun c hc => absurd hc (by simp)⟩
  | cons c L2 ih =>
      intro k g hI
      simp only [consensus_pass]
      obtain ⟨g1, k1, heq1, hcw1, hch1, hothers1, hkeep1, hterr1, hmem1⟩ :=
        consensus_cell_spec tl tape c.1 c.2 k g htl hnone hI
      rw [heq1]
      have hI1 : ∀ a b, (g1.cells a b).terrain = "none" ∨
          (g1.cells a b).terrain ∈ tl := by
        intro a b
        by_cases hab : a = c.1 ∧ b = c.2
        · rw [hab.1, hab.2]; exact Or.inr hmem1
        · rw [hothers1 a b hab]; exact hI a b
      obtain ⟨g2, k2, heq2, hcw2, hch2, hkeep2, hgood2⟩ := ih k1 g1 hI1
      refine ⟨g2, k2, heq2, hcw2.trans hcw1, hch2.trans hch1, ?_, ?_⟩
      · intro a b hab
        by_cases habc : a = c.1 ∧ b = c.2
        · have h1 : g1.cells a b = g.cells a b := by
            rw [habc.1, habc.2]
            exact hkeep1 (by rw [habc.1, habc.2] at hab; exact hab)
          have h2 : (g1.cells a b).terrain ≠ "none" := by rw [h1]; exact hab
          exact (hkeep2 a b h2).trans h1
        · have h1 : g1.cells a b = g.cells a b := hothers1 a b habc
          have h2 : (g1.cells a b).terrain ≠ "none" := by rw [h1]; exact hab
          exact (hkeep2 a b h2).trans h1
      · intro c2 hc2
        rcases List.mem_cons.mp hc2 with h | h
        · subst h
          have h1 : g2.cells c2.1 c2.2 = g1.cells c2.1 c2.2 :=
            hkeep2 c2.1 c2.2 hterr1
          rw [h1]
          exact ⟨hterr1, hmem1⟩
        · exact hgood2 c2 h

theorem mem_coords_list (w h x y : Nat) :
    (x, y) ∈ coords_list w h ↔ x < w ∧ y < h := by
  simp [coords_list]

theorem adopt_last_go_none (g : GridM) :
    ∀ (L : List (Nat × Nat)) (acc : Option String),
      (L.foldl (fun acc2 nb =>
        if (g.cells nb.1 nb.2).terrain ≠ "none" then
          some ((g.cells nb.1 nb.2).terrain) else acc2) acc = none ↔
      (acc = none ∧ ∀ nb ∈ L, (g.cells nb.1 nb.2).terrain = "none")) := by
  intro L
  induction L with
  | nil => intro acc; simp
  | cons nb L2 ih =>
      intro acc
      simp only [List.foldl_cons]
      by_cases hset : (g.cells nb.1 nb.2).terrain = "none"
      · rw [if_neg (by simp [hset]), ih]
        simp [hset, List.forall_mem_cons]
      · rw [if_pos hset, ih]
        simp [hset, List.forall_mem_cons]

theorem adopt_last_eq_none_iff (g : GridM) (L : List (Nat × Nat)) :
    adopt_last g L = none ↔
      ∀ nb ∈ L, (g.cells nb.1 nb.2).terrain = "none" := by
  have h := adopt_last_go_none g L none
  simpa [adopt_last] using h

/-- C1: for every grid with coordinate_width and coordinate_height at least
one and every random tape, after generate_terrain completes every cell of
the grid has a terrain different from the unset sentinel "none", and that
terrain belongs to the allowed terrain list. -/
theorem C1_generate_terrain_coverage (w h : Nat) (gt : String)
    (tl : List String) (tape : Tape) (hw : 1 ≤ w) (hh : 1 ≤ h)
    (htl : tl ≠ []) (hnone : "none" ∉ tl) :
    ∃ g2 k2, generate_terrain tl tape (create_grid w h gt) = .ok (g2, k2) ∧
      ∀ x y, x < w → y < h →
        (g2.cells x y).terrain ≠ "none" ∧ (g2.cells x y).terrain ∈ tl := by
  unfold generate_terrain
  obtain ⟨g1, k1, lens, heq1, hcw1, hch1, hlen1, hbnd1, hsum1, hT1⟩ :=
    worm_phase_spec tl tape
      ((create_grid w h gt).coordinate_width *
        (create_grid w h gt).coordinate_height / 5) 0 (create_grid w h gt)
      hw hh htl
  rw [heq1]
  dsimp only
  have hI1 : ∀ a b, (g1.cells a b).terrain = "none" ∨
      (g1.cells a b).terrain ∈ tl := by
    intro a b
    rcases hT1 a b with h1 | h1
    · exact Or.inl h1
    · exact Or.inr h1
  obtain ⟨g2, k2, heq2, hcw2, hch2, hkeep2, hgood2⟩ :=
    consensus_pass_spec tl tape htl hnone
      (coords_list g1.coordinate_width g1.coordinate_height) k1 g1 hI1
  rw [heq2]
  refine ⟨g2, k2, rfl, ?_⟩
  intro x y hx hy
  have hmem : (x, y) ∈ coords_list g1.coordinate_width g1.coordinate_height := by
    rw [mem_coords_list, hcw1, hch1]
    exact ⟨hx, hy⟩
  exact hgood2 (x, y) hmem

theorem C1_generate_terrain_coverage_witness :
    (1 ≤ 1 ∧ (["desert"] : List String) ≠ [] ∧ "none" ∉ ["desert"]) ∧
    ∃ g2 k2, generate_terrain ["desert"] (fun _ => 0) (create_grid 1 1 "g") =
        .ok (g2, k2) ∧
      ∀ x y, x < 1 → y < 1 →
        (g2.cells x y).terrain ≠ "none" ∧ (g2.cells x y).terrain ∈ ["desert"] :=
  ⟨⟨by decide, by decide, by decide⟩,
    C1_generate_terrain_coverage 1 1 "g" ["desert"] (fun _ => 0)
      (by decide) (by decide) (by decide) (by decide)⟩

/-- C2 is refuted on the code: in the sampled inspection order of the unset
origin of c2_grid the first already-set neighbor holds terrain "a", yet the
consensus step (whose neighbor loop has no break) leaves the origin with
"b", the terrain of the last already-set neighbor. -/
theorem C2_counterexample :
    ∃ g1 k1,
      consensus_cell ["a", "b"] (fun _ => 0) 0 0 0 c2_grid = .ok (g1, k1) ∧
      (g1.cells 0 0).terrain = "b" ∧
      (((pysample (fun _ => 0) 0 (adjacent_coords 2 2 0 0)).1.filter
          (fun nb => (c2_grid.cells nb.1 nb.2).terrain != "none")).head?.map
        (fun nb => (c2_grid.cells nb.1 nb.2).terrain)) = some "a" ∧
      ("b" : String) ≠ "a" := by
  refine ⟨_, _, rfl, rfl, rfl, by decide⟩

/-- C2 (amended): in the consensus pass, a cell still unset after the worm
phase ends its step with the terrain of the LAST already-set neighbor in the
randomly shuffled inspection order, because the neighbor loop keeps
overwriting without a break; only when no neighbor at all is set (the
adopt_last value is none, equivalently every sampled neighbor is unset) does
the cell receive the random draw from the allowed terrain list instead. -/
theorem C2_consensus_adopts_last (tl : List String) (tape : Tape)
    (x y k : Nat) (g : GridM) (hunset : (g.cells x y).terrain = "none")
    (htl : tl ≠ []) :
    ∃ g1 k1, consensus_cell tl tape x y k g = .ok (g1, k1) ∧
      ((∃ v, adopt_last g (pysample tape k (adjacent_coords
          g.coordinate_width g.coordinate_height x y)).1 = some v ∧
        (g1.cells x y).terrain = v ∧
        k1 = (pysample tape k (adjacent_coords
          g.coordinate_width g.coordinate_height x y)).2) ∨
       (adopt_last g (pysample tape k (adjacent_coords
          g.coordinate_width g.coordinate_height x y)).1 = none ∧
        (∀ nb ∈ (pysample tape k (adjacent_coords
          g.coordinate_width g.coordinate_height x y)).1,
          (g.cells nb.1 nb.2).terrain = "none") ∧
        (g1.cells x y).terrain = pychoice tape (pysample tape k
          (adjacent_coords g.coordinate_width g.coordinate_height x y)).2 tl ∧
        k1 = (pysample tape k (adjacent_coords
          g.coordinate_width g.coordinate_height x y)).2 + 1)) := by
  unfold consensus_cell
  rw [if_neg (by simp [hunset])]
  obtain ⟨hothers, hcw, hch, hres⟩ := adopt_fold_go x y g hunset
    (pysample tape k
      (adjacent_coords g.coordinate_width g.coordinate_height x y)).1
    g none (fun a b _ => rfl) (Or.inl ⟨rfl, hunset⟩)
  rcases hres with ⟨hfold, hterr⟩ | ⟨v, hfold, hvne, hterr⟩
  · rw [if_pos hterr, if_neg (by simpa [List.isEmpty_iff] using htl)]
    refine ⟨_, _, rfl, Or.inr ⟨hfold, ?_, ?_, rfl⟩⟩
    · exact (adopt_last_eq_none_iff g _).mp hfold
    · rw [set_terrain_self]
  · rw [if_neg (by rw [hterr]; exact hvne)]
    exact ⟨_, _, rfl, Or.inl ⟨v, hfold, hterr, rfl⟩⟩

theorem C2_consensus_adopts_last_witness :
    ((c2_grid.cells 0 0).terrain = "none" ∧ (["a", "b"] : List String) ≠ []) ∧
    ∃ g1 k1, consensus_cell ["a", "b"] (fun _ => 0) 0 0 0 c2_grid =
        .ok (g1, k1) ∧
      ((∃ v, adopt_last c2_grid (pysample (fun _ => 0) 0 (adjacent_coords
          c2_grid.coordinate_width c2_grid.coordinate_height 0 0)).1 = some v ∧
        (g1.cells 0 0).terrain = v ∧
        k1 = (pysample (fun _ => 0) 0 (adjacent_coords
          c2_grid.coordinate_width c2_grid.coordinate_height 0 0)).2) ∨
       (adopt_last c2_grid (pysample (fun _ => 0) 0 (adjacent_coords
          c2_grid.coordinate_width c2_grid.coordinate_height 0 0)).1 = none ∧
        (∀ nb ∈ (pysample (fun _ => 0) 0 (adjacent_coords
          c2_grid.coordinate_width c2_grid.coordinate_height 0 0)).1,
          (c2_grid.cells nb.1 nb.2).terrain = "none") ∧
        (g1.cells 0 0).terrain = pychoice (fun _ => 0) (pysample (fun _ => 0) 0
          (adjacent_coords c2_grid.coordinate_width
            c2_grid.coordinate_height 0 0)).2 ["a", "b"] ∧
        k1 = (pysample (fun _ => 0) 0 (adjacent_coords
          c2_grid.coordinate_width c2_grid.coordinate_height 0 0)).2 + 1)) :=
  ⟨⟨rfl, by decide⟩,
    C2_consensus_adopts_last ["a", "b"] (fun _ => 0) 0 0 0 c2_grid rfl
      (by decide)⟩

/-- C6: for every non-loaded grid, generate_terrain runs exactly
floor(area / 5) terrain worms (the worm phase it is defined from), and every
worm length lies in the inclusive range from round(area / 24) to
round(area / 12), each worm consuming its length plus four tape draws. -/
theorem C6_worm_count_and_length (w h : Nat) (gt : String) (tl : List String)
    (tape : Tape) (hw : 1 ≤ w) (hh : 1 ≤ h) (htl : tl ≠ []) :
    ∃ (g2 : GridM) (k2 : Nat) (lens : List Nat),
      worm_phase tl tape (w * h / 5) 0 (create_grid w h gt) = .ok (g2, k2) ∧
      lens.length = w * h / 5 ∧
      (∀ l ∈ lens, pyround (w * h) 24 ≤ l ∧ l ≤ pyround (w * h) 12) ∧
      k2 = (lens.map (fun l => l + 4)).sum ∧
      generate_terrain tl tape (create_grid w h gt) =
        match worm_phase tl tape (w * h / 5) 0 (create_grid w h gt) with
        | .error e => .error e
        | .ok (g1, k1) =>
            consensus_pass tl tape
              (coords_list g1.coordinate_width g1.coordinate_height) k1 g1 := by
  obtain ⟨g2, k2, lens, heq, hcw, hch, hlen, hbnd, hsum, hT⟩ :=
    worm_phase_spec tl tape (w * h / 5) 0 (create_grid w h gt) hw hh htl
  refine ⟨g2, k2, lens, heq, hlen, hbnd, by omega, rfl⟩

theorem C6_worm_count_and_length_witness :
    (1 ≤ 5 ∧ 1 ≤ 1 ∧ (["desert"] : List String) ≠ []) ∧
    ∃ (g2 : GridM) (k2 : Nat) (lens : List Nat),
      worm_phase ["desert"] (fun _ => 0) (5 * 1 / 5) 0 (create_grid 5 1 "g") =
        .ok (g2, k2) ∧
      lens.length = 5 * 1 / 5 ∧
      (∀ l ∈ lens, pyround (5 * 1) 24 ≤ l ∧ l ≤ pyround (5 * 1) 12) ∧
      k2 = (lens.map (fun l => l + 4)).sum ∧
      generate_terrain ["desert"] (fun _ => 0) (create_grid 5 1 "g") =
        match worm_phase ["desert"] (fun _ => 0) (5 * 1 / 5) 0
            (create_grid 5 1 "g") with
        | .error e => .error e
        | .ok (g1, k1) =>
            consensus_pass ["desert"] (fun _ => 0)
              (coords_list g1.coordinate_width g1.coordinate_height) k1 g1 :=
  ⟨⟨by decide, by decide, by decide⟩,
    C6_worm_count_and_length 5 1 "g" ["desert"] (fun _ => 0)
      (by decide) (by decide) (by decide)⟩

/-- C9: on a grid with both dimensions at least one, every coordinate pair a
terrain worm passes to find_cell is in range (find_cell answers some cell on
all in-range pairs), so make_random_terrain_worm never hits the
AttributeError of dereferencing a missing cell. -/
theorem C9_worm_find_cell_safe (min_len max_len : Nat) (tl : List String)
    (tape : Tape) (k : Nat) (g : GridM) (hw : 1 ≤ g.coordinate_width)
    (hh : 1 ≤ g.coordinate_height) :
    (∀ x y, x < g.coordinate_width → y < g.coordinate_height →
      find_cell g x y = some (g.cells x y)) ∧
    make_random_terrain_worm min_len max_len tl tape k g ≠
      .error "AttributeError" := by
  constructor
  · intro x y hx hy
    unfold find_cell
    exact if_pos ⟨hx, hy⟩
  · unfold make_random_terrain_worm
    rw [if_neg (by rintro (h1 | h1) <;> omega)]
    by_cases hml : max_len + 1 ≤ min_len
    · rw [if_pos hml]
      intro hc
      injection hc with hs
      exact absurd hs (by decide)
    · rw [if_neg hml]
      by_cases hemp : tl.isEmpty
      · rw [if_pos hemp]
        intro hc
        injection hc with hs
        exact absurd hs (by decide)
      · rw [if_neg hemp]
        have hsx : tape k % g.coordinate_width < g.coordinate_width :=
          Nat.mod_lt _ hw
        have hsy : tape (k + 1) % g.coordinate_height < g.coordinate_height :=
          Nat.mod_lt _ hh
        have hfc : find_cell g (tape k % g.coordinate_width)
            (tape (k + 1) % g.coordinate_height) =
            some (g.cells (tape k % g.coordinate_width)
              (tape (k + 1) % g.coordinate_height)) := by
          unfold find_cell
          exact if_pos ⟨hsx, hsy⟩
        rw [hfc]
        dsimp only
        obtain ⟨g2, heq, _, _, _⟩ := worm_steps_spec
          (pychoice tape (k + 3) tl) tape
          (min_len + tape (k + 2) % (max_len + 1 - min_len))
          (tape k % g.coordinate_width) (tape (k + 1) % g.coordinate_height)
          (k + 4)
          (set_terrain g (tape k % g.coordinate_width)
            (tape (k + 1) % g.coordinate_height) (pychoice tape (k + 3) tl))
          hsx hsy
        rw [heq]
        simp

theorem C9_worm_find_cell_safe_witness :
    (1 ≤ (create_grid 2 2 "g").coordinate_width ∧
      1 ≤ (create_grid 2 2 "g").coordinate_height) ∧
    (∀ x y, x < (create_grid 2 2 "g").coordinate_width →
      y < (create_grid 2 2 "g").coordinate_height →
      find_cell (create_grid 2 2 "g") x y =
        some ((create_grid 2 2 "g").cells x y)) ∧
    make_random_terrain_worm 0 0 ["desert"] (fun _ => 0) 0
      (create_grid 2 2 "g") ≠ .error "AttributeError" :=
  ⟨⟨by decide, by decide⟩,
    C9_worm_find_cell_safe 0 0 ["desert"] (fun _ => 0) 0 (create_grid 2 2 "g")
      (by decide) (by decide)⟩

/-- C7: grid.choose_cell returns the no-match sentinel exactly when no cell
of the grid satisfies all requirements (terrain contained in the allowed
list, y nonzero when ocean is not allowed, no adjacent buildings when those
are not allowed); otherwise it returns the draw-indexed element of exactly
the list of satisfying cells, and in both cases it is a total function. -/
theorem C7_choose_cell (g : GridM) (allowed_terrains : List String)
    (ocean_allowed nearby_buildings_allowed : Bool) (tape : Tape) (k : Nat)
    (possible : List CellData)
    (hpos : possible = (flat_cells g).filter (fun c =>
      allowed_terrains.contains c.terrain &&
      (ocean_allowed || !(c.y = 0 : Bool)) &&
      (nearby_buildings_allowed || !c.adjacent_to_buildings))) :
    (choose_cell g allowed_terrains ocean_allowed nearby_buildings_allowed
        tape k = none ↔ possible = []) ∧
    (possible = [] ↔ ∀ c ∈ flat_cells g,
      ¬(allowed_terrains.contains c.terrain &&
        (ocean_allowed || !(c.y = 0 : Bool)) &&
        (nearby_buildings_allowed || !c.adjacent_to_buildings)) = true) ∧
    (possible ≠ [] →
      choose_cell g allowed_terrains ocean_allowed nearby_buildings_allowed
          tape k =
        some (possible.getD (tape k % possible.length) (blank_cell 0 0)) ∧
      possible.getD (tape k % possible.length) (blank_cell 0 0) ∈
        flat_cells g ∧
      (allowed_terrains.contains
          (possible.getD (tape k % possible.length) (blank_cell 0 0)).terrain &&
        (ocean_allowed ||
          !((possible.getD (tape k % possible.length) (blank_cell 0 0)).y = 0 : Bool)) &&
        (nearby_buildings_allowed ||
          !(possible.getD (tape k % possible.length)
              (blank_cell 0 0)).adjacent_to_buildings)) = true) := by
  subst hpos
  unfold choose_cell
  have h2 := List.filter_eq_nil_iff (p := fun c =>
      allowed_terrains.contains c.terrain &&
      (ocean_allowed || !(c.y = 0 : Bool)) &&
      (nearby_buildings_allowed || !c.adjacent_to_buildings))
    (l := flat_cells g)
  by_cases hemp : (flat_cells g).filter (fun c =>
      allowed_terrains.contains c.terrain &&
      (ocean_allowed || !(c.y = 0 : Bool)) &&
      (nearby_buildings_allowed || !c.adjacent_to_buildings)) = []
  · rw [if_pos (List.isEmpty_iff.mpr hemp)]
    exact ⟨⟨fun _ => hemp, fun _ => rfl⟩, h2, fun hne => absurd hemp hne⟩
  · rw [if_neg (fun h => hemp (List.isEmpty_iff.mp h))]
    refine ⟨⟨fun h => absurd h (by simp), fun h => absurd h hemp⟩, h2,
      fun _ => ⟨rfl, ?_, ?_⟩⟩
    · have hlen : 0 < ((flat_cells g).filter _).length :=
        List.length_pos.mpr hemp
      have hlt : tape k % ((flat_cells g).filter _).length <
          ((flat_cells g).filter _).length := Nat.mod_lt _ hlen
      rw [List.getD_eq_getElem _ _ hlt]
      exact (List.mem_filter.mp (List.getElem_mem hlt)).1
    · have hlen : 0 < ((flat_cells g).filter _).length :=
        List.length_pos.mpr hemp
      have hlt : tape k % ((flat_cells g).filter _).length <
          ((flat_cells g).filter _).length := Nat.mod_lt _ hlen
      rw [List.getD_eq_getElem _ _ hlt]
      exact (List.mem_filter.mp (List.getElem_mem hlt)).2

theorem C7_choose_cell_witness :
    ((flat_cells (set_terrain (create_grid 1 1 "g") 0 0 "desert")).filter
        (fun c => (["desert"] : List String).contains c.terrain &&
          (true || !(c.y = 0 : Bool)) && (true || !c.adjacent_to_buildings)) =
      (flat_cells (set_terrain (create_grid 1 1 "g") 0 0 "desert")).filter
        (fun c => (["desert"] : List String).contains c.terrain &&
          (true || !(c.y = 0 : Bool)) && (true || !c.adjacent_to_buildings))) ∧
    (choose_cell (set_terrain (create_grid 1 1 "g") 0 0 "desert") ["desert"]
        true true (fun _ => 0) 0 = none ↔
      (flat_cells (set_terrain (create_grid 1 1 "g") 0 0 "desert")).filter
        (fun c => (["desert"] : List String).contains c.terrain &&
          (true || !(c.y = 0 : Bool)) && (true || !c.adjacent_to_buildings)) =
        []) :=
  ⟨rfl, (C7_choose_cell (set_terrain (create_grid 1 1 "g") 0 0 "desert")
    ["desert"] true true (fun _ => 0) 0 _ rfl).1⟩

/-- C8: a terrain definition accepts a candidate parameter tuple exactly
when, for every registered parameter type, the value lies in the inclusive
range of that parameter; classification returns the first accepting
definition in registration order (the first-match of the list) and the
no-match sentinel when no definition accepts, with no partial matching. -/
theorem C8_classifier (t : TDGTerrain) (ptypes : List String)
    (vals : String → Int) (terrains : List TDGTerrain) :
    (in_bounds t ptypes vals = true ↔
      ∀ pt ∈ ptypes, (t.parameter_dict pt).pmin ≤ vals pt ∧
        vals pt ≤ (t.parameter_dict pt).pmax) ∧
    get_terrain ptypes vals terrains =
      terrains.find? (fun t2 => in_bounds t2 ptypes vals) ∧
    (get_terrain ptypes vals terrains = none ↔
      ∀ t2 ∈ terrains, in_bounds t2 ptypes vals = false) := by
  have h2 : get_terrain ptypes vals terrains =
      terrains.find? (fun t2 => in_bounds t2 ptypes vals) := by
    induction terrains with
    | nil => rfl
    | cons t2 rest ih =>
        by_cases h : in_bounds t2 ptypes vals = true
        · simp [get_terrain, List.find?_cons, h]
        · simp only [Bool.not_eq_true] at h
          simp [get_terrain, List.find?_cons, h, ih]
  refine ⟨?_, h2, ?_⟩
  · unfold in_bounds parameter_in_bounds
    simp [List.all_eq_true, Bool.and_eq_true, decide_eq_true_iff]
  · rw [h2, List.find?_eq_none]
    simp [Bool.not_eq_true]

/-- C10: for a mini grid with odd dimensions, at any in-range mini
coordinate whose unwrapped parent coordinate is already inside the parent
bounds (so the main conversion applies no wrap adjustment), converting to
main-grid coordinates and back is the identity. -/
theorem C10_mini_roundtrip (pw ph cw ch cx cy mx my : Int)
    (hcw : cw % 2 = 1) (hch : ch % 2 = 1)
    (hmx0 : 0 ≤ mx) (hmxw : mx < cw) (hmy0 : 0 ≤ my) (hmyh : my < ch)
    (hax0 : 0 ≤ cx + mx - (cw - 1) / 2)
    (haxw : cx + mx - (cw - 1) / 2 < pw)
    (hay0 : 0 ≤ cy + my - (ch - 1) / 2)
    (hayh : cy + my - (ch - 1) / 2 < ph) :
    get_mini_grid_coordinates cw ch cx cy
      (get_main_grid_coordinates pw ph cw ch cx cy mx my).1
      (get_main_grid_coordinates pw ph cw ch cx cy mx my).2 = (mx, my) := by
  have hrh : pyround_half (cw - 1) = (cw - 1) / 2 := by
    unfold pyround_half
    rw [if_pos (by omega)]
  have hrh2 : pyround_half (ch - 1) = (ch - 1) / 2 := by
    unfold pyround_half
    rw [if_pos (by omega)]
  unfold get_main_grid_coordinates get_mini_grid_coordinates
  dsimp only
  rw [hrh, hrh2]
  rw [if_neg (by omega), if_neg (by omega), if_neg (by omega), if_neg (by omega)]
  have hnum : 2 * (cx + mx - (cw - 1) / 2 - cx) + (cw - 1) = 2 * mx := by
    omega
  rw [hnum, Int.mul_tdiv_cancel_left mx (by decide)]
  have hysimp : cy + my - (ch - 1) / 2 - cy + (ch - 1) / 2 = my := by omega
  rw [hysimp, Int.emod_eq_of_lt hmx0 hmxw, Int.emod_eq_of_lt hmy0 hmyh]

theorem C10_mini_roundtrip_witness :
    ((5 : Int) % 2 = 1 ∧ (0 : Int) ≤ 3 ∧ (3 : Int) < 5 ∧
      (0 : Int) ≤ 7 + 3 - (5 - 1) / 2 ∧ (7 : Int) + 3 - (5 - 1) / 2 < 20) ∧
    get_mini_grid_coordinates 5 5 7 7
      (get_main_grid_coordinates 20 20 5 5 7 7 3 4).1
      (get_main_grid_coordinates 20 20 5 5 7 7 3 4).2 = (3, 4) :=
  ⟨⟨by decide, by decide, by decide, by decide, by decide⟩,
    C10_mini_roundtrip 20 20 5 5 7 7 3 4 (by decide) (by decide) (by decide)
      (by decide) (by decide) (by decide) (by decide) (by decide) (by decide)
      (by decide)⟩

/- Cumulative weight table lemmas for the resource assignment. -/

theorem sum_weights_cons (e : String × Nat) (rest : List (String × Nat)) :
    sum_weights (e :: rest) = e.2 + sum_weights rest := by
  simp [sum_weights]

theorem getLast?_cons_of_ne_nil {α : Type} (l : List α) (a : α) (h : l ≠ []) :
    (a :: l).getLast? = l.getLast? := by
  cases l with
  | nil => exact absurd rfl h
  | cons b l2 => exact List.getLast?_cons_cons

theorem cumulate_ne_nil (e : String × Nat) (rest : List (String × Nat))
    (acc : Nat) : cumulate (e :: rest) acc ≠ [] := by
  simp [cumulate]

theorem cumulate_getLast (ws : List (String × Nat)) :
    ∀ acc : Nat, ws ≠ [] →
      ∃ name, (cumulate ws acc).getLast? = some (name, acc + sum_weights ws) := by
  induction ws with
  | nil => intro acc h; exact absurd rfl h
  | cons e rest ih =>
      intro acc _
      cases rest with
      | nil =>
          refine ⟨e.1, ?_⟩
          simp [cumulate, sum_weights]
      | cons e2 rest2 =>
          obtain ⟨name, hlast⟩ := ih (acc + e.2) (by simp)
          refine ⟨name, ?_⟩
          have hne := cumulate_ne_nil e2 rest2 (acc + e.2)
          calc (cumulate (e :: e2 :: rest2) acc).getLast?
              = ((e.1, acc + e.2) :: cumulate (e2 :: rest2) (acc + e.2)).getLast? := rfl
            _ = (cumulate (e2 :: rest2) (acc + e.2)).getLast? :=
                getLast?_cons_of_ne_nil _ _ hne
            _ = some (name, acc + e.2 + sum_weights (e2 :: rest2)) := hlast
            _ = some (name, acc + sum_weights (e :: e2 :: rest2)) := by
                rw [sum_weights_cons e (e2 :: rest2)]
                rw [Nat.add_assoc]

theorem lookup_rld (freqs : List (String × List (String × Nat))) (t : String) :
    List.lookup t (create_resource_list_dict freqs) =
      (List.lookup t freqs).map (fun ws => cumulate ws 0) := by
  induction freqs with
  | nil => rfl
  | cons p rest ih =>
      simp only [create_resource_list_dict, List.map_cons, List.lookup]
      by_cases h : t == p.1
      · simp [h]
      · simp only [h]
        exact ih

theorem select_resource_some (draw : Nat) :
    ∀ (ws : List (String × Nat)) (acc : Nat), acc ≤ draw →
      draw < acc + sum_weights ws →
      ∃ e, select_resource (cumulate ws acc) draw = some e := by
  intro ws
  induction ws with
  | nil =>
      intro acc h1 h2
      rw [sum_weights] at h2
      simp at h2
      omega
  | cons e rest ih =>
      intro acc h1 h2
      by_cases hd : draw < acc + e.2
      · refine ⟨(e.1, acc + e.2), ?_⟩
        unfold select_resource cumulate
        rw [List.find?_cons,
          show decide (draw < (e.1, acc + e.2).2) = true from by simpa using hd]
      · rw [sum_weights_cons] at h2
        obtain ⟨e2, he2⟩ := ih (acc + e.2) (by omega) (by omega)
        refine ⟨e2, ?_⟩
        unfold select_resource cumulate
        rw [List.find?_cons,
          show decide (draw < (e.1, acc + e.2).2) = false from by simpa using hd]
        exact he2

theorem select_idx_cons (r : String) (cum : Nat) (rest : List (String × Nat))
    (d : Nat) :
    select_idx ((r, cum) :: rest) d =
      if d < cum then 0 else select_idx rest d + 1 := by
  unfold select_idx
  rw [List.findIdx_cons]
  by_cases h : d < cum
  · simp [h]
  · simp [h]

theorem select_idx_count :
    ∀ (ws : List (String × Nat)) (acc i : Nat) (hi : i < ws.length),
      ((Finset.Ico acc (acc + sum_weights ws)).filter
        (fun draw => select_idx (cumulate ws acc) draw = i)).card =
        (ws.get ⟨i, hi⟩).2 := by
  intro ws
  induction ws with
  | nil => intro acc i hi; exact absurd hi (by simp)
  | cons e rest ih =>
      intro acc i hi
      have hcum : cumulate (e :: rest) acc =
          (e.1, acc + e.2) :: cumulate rest (acc + e.2) := by
        cases e
        rfl
      rw [sum_weights_cons, hcum]
      cases i with
      | zero =>
          have hset : (Finset.Ico acc (acc + (e.2 + sum_weights rest))).filter
              (fun draw => select_idx ((e.1, acc + e.2) ::
                cumulate rest (acc + e.2)) draw = 0) =
              Finset.Ico acc (acc + e.2) := by
            ext d
            simp only [Finset.mem_filter, Finset.mem_Ico, select_idx_cons]
            constructor
            · rintro ⟨⟨hd1, hd2⟩, hd3⟩
              by_cases hd : d < acc + e.2
              · exact ⟨hd1, hd⟩
              · rw [if_neg hd] at hd3
                omega
            · rintro ⟨hd1, hd2⟩
              refine ⟨⟨hd1, by omega⟩, ?_⟩
              rw [if_pos hd2]
          rw [hset, Nat.card_Ico]
          simp
      | succ j =>
          have hj : j < rest.length := by
            have := hi
            simp at this
            omega
          have hset : (Finset.Ico acc (acc + (e.2 + sum_weights rest))).filter
              (fun draw => select_idx ((e.1, acc + e.2) ::
                cumulate rest (acc + e.2)) draw = j + 1) =
              (Finset.Ico (acc + e.2) (acc + e.2 + sum_weights rest)).filter
                (fun draw => select_idx (cumulate rest (acc + e.2)) draw = j) := by
            ext d
            simp only [Finset.mem_filter, Finset.mem_Ico, select_idx_cons]
            constructor
            · rintro ⟨⟨hd1, hd2⟩, hd3⟩
              by_cases hd : d < acc + e.2
              · rw [if_pos hd] at hd3
                omega
              · rw [if_neg hd] at hd3
                exact ⟨⟨by omega, by omega⟩, by omega⟩
            · rintro ⟨⟨hd1, hd2⟩, hd3⟩
              refine ⟨⟨by omega, by omega⟩, ?_⟩
              rw [if_neg (by omega)]
              omega
          rw [hset, ih (acc + e.2) j hj]
          simp

theorem set_cell_resource_terrain (g : GridM) (x y : Nat) (v : String)
    (a b : Nat) :
    ((set_cell g x y { g.cells x y with resource := v }).cells a b).terrain =
      (g.cells a b).terrain := by
  rw [set_cell_eval]
  by_cases hab : a = x ∧ b = y
  · rw [if_pos hab, hab.1, hab.2]
  · rw [if_neg hab]

theorem set_resources_cell_ok (rld : List (String × List (String × Nat)))
    (tape : Tape) (c : Nat × Nat) (k : Nat) (g : GridM)
    (ws : List (String × Nat))
    (hlook : List.lookup (g.cells c.1 c.2).terrain rld = some (cumulate ws 0))
    (hpos : 0 < sum_weights ws) :
    ∃ e, select_resource (cumulate ws 0) (tape k % sum_weights ws) = some e ∧
      set_resources_cell rld tape c k g =
        .ok (set_cell g c.1 c.2 { g.cells c.1 c.2 with resource := e.1 },
          k + 1) := by
  have hne : ws ≠ [] := by
    intro h
    rw [h] at hpos
    simp [sum_weights] at hpos
  obtain ⟨name, hlast⟩ := cumulate_getLast ws 0 hne
  rw [show (0 : Nat) + sum_weights ws = sum_weights ws from by omega] at hlast
  obtain ⟨e, he⟩ := select_resource_some (tape k % sum_weights ws) ws 0
    (Nat.zero_le _) (by simpa using Nat.mod_lt (tape k) hpos)
  refine ⟨e, he, ?_⟩
  unfold set_resources_cell
  rw [hlook]
  dsimp only
  rw [hlast]
  dsimp only
  rw [if_neg (by omega)]
  rw [he]

theorem set_resources_cell_bad (freqs : List (String × List (String × Nat)))
    (tape : Tape) (c : Nat × Nat) (k : Nat) (g : GridM)
    (hbad : List.lookup (g.cells c.1 c.2).terrain freqs = none ∨
      ∃ ws, List.lookup (g.cells c.1 c.2).terrain freqs = some ws ∧
        sum_weights ws = 0) :
    ∃ e, set_resources_cell (create_resource_list_dict freqs) tape c k g =
      .error e := by
  unfold set_resources_cell
  rw [lookup_rld]
  rcases hbad with h | ⟨ws, hws, hsum⟩
  · rw [h]
    exact ⟨"KeyError", rfl⟩
  · rw [hws]
    dsimp only [Option.map]
    cases ws with
    | nil => exact ⟨"IndexError", rfl⟩
    | cons e rest =>
        obtain ⟨name, hlast⟩ := cumulate_getLast (e :: rest) 0 (by simp)
        rw [hlast]
        dsimp only
        rw [if_pos (by omega)]
        exact ⟨"ValueError", rfl⟩

theorem set_resources_pass_error (freqs : List (String × List (String × Nat)))
    (tape : Tape) :
    ∀ (L : List (Nat × Nat)) (k : Nat) (g : GridM),
      (∃ c ∈ L, List.lookup (g.cells c.1 c.2).terrain freqs = none ∨
        ∃ ws, List.lookup (g.cells c.1 c.2).terrain freqs = some ws ∧
          sum_weights ws = 0) →
      ∃ e, set_resources_pass (create_resource_list_dict freqs) tape L k g =
        .error e := by
  intro L
  induction L with
  | nil =>
      intro k g h
      obtain ⟨c, hc, _⟩ := h
      exact absurd hc (by simp)
  | cons c L2 ih =>
      intro k g h
      simp only [set_resources_pass]
      by_cases hhead : List.lookup (g.cells c.1 c.2).terrain freqs = none ∨
          ∃ ws, List.lookup (g.cells c.1 c.2).terrain freqs = some ws ∧
            sum_weights ws = 0
      · obtain ⟨e, he⟩ := set_resources_cell_bad freqs tape c k g hhead
        rw [he]
        exact ⟨e, rfl⟩
      · push_neg at hhead
        obtain ⟨c0, hc0, hbad0⟩ := h
        have hc0L2 : c0 ∈ L2 := by
          rcases List.mem_cons.mp hc0 with h1 | h1
          · exact absurd (h1 ▸ hbad0) (by subst h1; push_neg; exact hhead)
          · exact h1
        obtain ⟨ws, hws⟩ := Option.ne_none_iff_exists.mp hhead.1
        have hpos : 0 < sum_weights ws := by
          have := hhead.2 ws hws.symm
          omega
        have hlook2 : List.lookup (g.cells c.1 c.2).terrain
            (create_resource_list_dict freqs) = some (cumulate ws 0) := by
          rw [lookup_rld, ← hws]
          rfl
        obtain ⟨e, _, heq⟩ := set_resources_cell_ok
          (create_resource_list_dict freqs) tape c k g ws hlook2 hpos
        rw [heq]
        dsimp only
        apply ih
        refine ⟨c0, hc0L2, ?_⟩
        have hterr : ((set_cell g c.1 c.2
            { g.cells c.1 c.2 with resource := e.1 }).cells c0.1 c0.2).terrain =
            (g.cells c0.1 c0.2).terrain := set_cell_resource_terrain g c.1 c.2 e.1 c0.1 c0.2
        rw [hterr]
        exact hbad0

theorem select_resource_get (lst : List (String × Nat)) :
    ∀ draw, select_resource lst draw = lst.get? (select_idx lst draw) := by
  induction lst with
  | nil => intro d; rfl
  | cons e rest ih =>
      rcases e with ⟨r, cum⟩
      intro d
      by_cases hd : d < cum
      · rw [select_idx_cons, if_pos hd]
        unfold select_resource
        rw [List.find?_cons,
          show decide (d < (r, cum).2) = true from by simpa using hd]
        rfl
      · rw [select_idx_cons, if_neg hd]
        unfold select_resource
        rw [List.find?_cons,
          show decide (d < (r, cum).2) = false from by simpa using hd]
        exact ih d

theorem coords_list_succ (w h : Nat) :
    coords_list (w + 1) h =
      coords_list w h ++ (List.range h).map (fun y => (w, y)) := by
  unfold coords_list
  rw [List.range_succ, List.flatMap_append]
  simp

theorem coords_list_length (w h : Nat) :
    (coords_list w h).length = w * h := by
  induction w with
  | zero => simp [coords_list]
  | succ n ih =>
      rw [coords_list_succ, List.length_append, ih]
      simp [Nat.succ_mul]

theorem coords_list_getq (w h : Nat) :
    ∀ x y, x < w → y < h →
      (coords_list w h).get? (x * h + y) = some (x, y) := by
  induction w with
  | zero => intro x y hx _; exact absurd hx (by omega)
  | succ n ih =>
      intro x y hx hy
      rw [coords_list_succ]
      by_cases hxn : x < n
      · have hb : x * h + y < n * h := by
          have h1 : x * h + y < (x + 1) * h := by
            rw [Nat.succ_mul]
            omega
          have h2 : (x + 1) * h ≤ n * h := Nat.mul_le_mul_right _ hxn
          omega
        rw [List.get?_append (by rw [coords_list_length]; exact hb)]
        exact ih x y hxn hy
      · have hxeq : x = n := by omega
        subst hxeq
        rw [List.get?_append_right (by rw [coords_list_length]; omega)]
        rw [coords_list_length]
        rw [show x * h + y - x * h = y from by omega]
        rw [List.get?_map, List.get?_range hy]
        rfl

theorem coords_list_nodup (w h : Nat) : (coords_list w h).Nodup := by
  induction w with
  | zero => exact List.nodup_nil
  | succ n ih =>
      rw [coords_list_succ]
      refine List.Nodup.append ih ?_ ?_
      · exact List.Nodup.map (fun a b e => congrArg Prod.snd e)
          (List.nodup_range h)
      · intro p hp hq
        have h1 := (mem_coords_list n h p.1 p.2).mp hp
        obtain ⟨y2, _, hy2⟩ := List.mem_map.mp hq
        have h2 : p.1 = n := by rw [← hy2]
        omega

theorem set_resources_pass_ok (freqs : List (String × List (String × Nat)))
    (tape : Tape) :
    ∀ (L : List (Nat × Nat)) (k : Nat) (g : GridM), L.Nodup →
      (∀ c ∈ L, ∃ ws, List.lookup (g.cells c.1 c.2).terrain freqs = some ws ∧
        0 < sum_weights ws) →
      ∃ g2, set_resources_pass (create_resource_list_dict freqs) tape L k g =
          .ok (g2, k + L.length) ∧
        g2.coordinate_width = g.coordinate_width ∧
        g2.coordinate_height = g.coordinate_height ∧
        (∀ a b, ¬(a, b) ∈ L → g2.cells a b = g.cells a b) ∧
        (∀ a b, (g2.cells a b).terrain = (g.cells a b).terrain) ∧
        (∀ (i : Nat) (c2 : Nat × Nat), i < L.length → L.get? i = some c2 →
          ∃ ws, List.lookup (g.cells c2.1 c2.2).terrain freqs = some ws ∧
            0 < sum_weights ws ∧
            ∃ e, select_resource (cumulate ws 0)
                (tape (k + i) % sum_weights ws) = some e ∧
              (g2.cells c2.1 c2.2).resource = e.1) := by
  intro L
  induction L with
  | nil =>
      intro k g _ _
      exact ⟨g, rfl, rfl, rfl, fun a b _ => rfl, fun a b => rfl,
        fun i c2 hi _ => absurd hi (by simp)⟩
  | cons c L2 ih =>
      intro k g hnd hgood
      obtain ⟨hcnotin, hnd2⟩ := List.nodup_cons.mp hnd
      obtain ⟨ws, hlf, hpos⟩ := hgood c (List.mem_cons_self c L2)
      have hlook2 : List.lookup (g.cells c.1 c.2).terrain
          (create_resource_list_dict freqs) = some (cumulate ws 0) := by
        rw [lookup_rld, hlf]
        rfl
      obtain ⟨e, he, heq⟩ := set_resources_cell_ok
        (create_resource_list_dict freqs) tape c k g ws hlook2 hpos
      simp only [set_resources_pass]
      rw [heq]
      dsimp only
      have hterr1 : ∀ a b, ((set_cell g c.1 c.2
          { g.cells c.1 c.2 with resource := e.1 }).cells a b).terrain =
          (g.cells a b).terrain :=
        fun a b => set_cell_resource_terrain g c.1 c.2 e.1 a b
      obtain ⟨g2, heq2, hcw2, hch2, hout2, hterr2, hidx2⟩ := ih (k + 1)
        (set_cell g c.1 c.2 { g.cells c.1 c.2 with resource := e.1 }) hnd2
        (by
          intro c2 hc2
          obtain ⟨ws2, hlf2, hpos2⟩ := hgood c2 (List.mem_cons_of_mem c hc2)
          exact ⟨ws2, by rw [hterr1]; exact hlf2, hpos2⟩)
      have harith : k + 1 + L2.length = k + (c :: L2).length := by
        simp [List.length_cons]
        omega
      rw [harith] at heq2
      refine ⟨g2, heq2, hcw2, hch2, ?_, ?_, ?_⟩
      · intro a b hab
        rw [List.mem_cons] at hab
        push_neg at hab
        rw [hout2 a b hab.2, set_cell_eval,
          if_neg (by
            intro hc
            exact hab.1 (by rw [hc.1, hc.2]))]
      · intro a b
        rw [hterr2, hterr1]
      · intro i c2 hi hget
        cases i with
        | zero =>
            have hc2 : c2 = c := (Option.some.inj hget).symm
            subst hc2
            have hsame : g2.cells c2.1 c2.2 = (set_cell g c2.1 c2.2
                { g.cells c2.1 c2.2 with resource := e.1 }).cells c2.1 c2.2 :=
              hout2 c2.1 c2.2 hcnotin
            refine ⟨ws, hlf, hpos, e, ?_, ?_⟩
            · rw [Nat.add_zero]
              exact he
            · rw [hsame, set_cell_eval, if_pos ⟨rfl, rfl⟩]
        | succ j =>
            have hj : j < L2.length := by
              simp at hi
              omega
            have hget2 : L2.get? j = some c2 := hget
            obtain ⟨ws2, hlf2, hpos2, e2, he2, hres2⟩ :=
              hidx2 j c2 hj hget2
            rw [hterr1] at hlf2
            rw [show k + 1 + j = k + (j + 1) from by omega] at he2
            exact ⟨ws2, hlf2, hpos2, e2, he2, hres2⟩

theorem features_inner_resource (ft : String × (CellData → Bool)) :
    ∀ (L : List (Nat × Nat)) (g : GridM) (a b : Nat),
      ((L.foldl (fun gb c =>
        if ft.2 (gb.cells c.1 c.2) then
          set_cell gb c.1 c.2
            { gb.cells c.1 c.2 with
                features := (gb.cells c.1 c.2).features ++ [ft.1] }
        else gb) g).cells a b).resource = (g.cells a b).resource := by
  intro L
  induction L with
  | nil => intro g a b; rfl
  | cons c L2 ih =>
      intro g a b
      simp only [List.foldl_cons]
      rw [ih]
      by_cases hp : ft.2 (g.cells c.1 c.2)
      · rw [if_pos hp, set_cell_eval]
        by_cases hab : a = c.1 ∧ b = c.2
        · rw [if_pos hab, hab.1, hab.2]
        · rw [if_neg hab]
      · rw [if_neg hp]

theorem generate_terrain_features_resource
    (fts : List (String × (CellData → Bool))) :
    ∀ (g : GridM) (a b : Nat),
      ((generate_terrain_features fts g).cells a b).resource =
        (g.cells a b).resource := by
  induction fts with
  | nil => intro g a b; rfl
  | cons ft rest ih =>
      intro g a b
      have hstep : generate_terrain_features (ft :: rest) g =
          generate_terrain_features rest
            ((coords_list g.coordinate_width g.coordinate_height).foldl
              (fun gb c =>
                if ft.2 (gb.cells c.1 c.2) then
                  set_cell gb c.1 c.2
                    { gb.cells c.1 c.2 with
                        features := (gb.cells c.1 c.2).features ++ [ft.1] }
                else gb) g) := rfl
      rw [hstep, ih, features_inner_resource]

/-- C3 is refuted on the code: with a terrain absent from the resource
frequency table (an empty table and a one-cell swamp grid) the non-loaded
branch of set_resources raises KeyError instead of assigning the "none"
resource sentinel, and with an empty or zero-weight entry it raises
IndexError or ValueError. -/
theorem C3_counterexample :
    List.lookup ((set_terrain (create_grid 1 1 "g") 0 0 "swamp").cells 0 0).terrain
      ([] : List (String × List (String × Nat))) = none ∧
    set_resources [] [] (fun _ => 0) 0
      (set_terrain (create_grid 1 1 "g") 0 0 "swamp") = .error "KeyError" ∧
    set_resources [("swamp", [])] [] (fun _ => 0) 0
      (set_terrain (create_grid 1 1 "g") 0 0 "swamp") = .error "IndexError" ∧
    set_resources [("swamp", [("gold", 0)])] [] (fun _ => 0) 0
      (set_terrain (create_grid 1 1 "g") 0 0 "swamp") = .error "ValueError" :=
  ⟨rfl, rfl, rfl, rfl⟩

/-- C3 (amended): for a non-loaded grid, if some cell terrain is absent from
the resource frequency table, or present with zero total weight, then
set_resources does not complete: it raises the corresponding Python error
(KeyError, IndexError or ValueError) and assigns no sentinel. -/
theorem C3_missing_entry_errors (freqs : List (String × List (String × Nat)))
    (fts : List (String × (CellData → Bool))) (tape : Tape) (k : Nat)
    (g : GridM) (x y : Nat) (hfs : g.from_save = false)
    (hx : x < g.coordinate_width) (hy : y < g.coordinate_height)
    (hbad : List.lookup (g.cells x y).terrain freqs = none ∨
      ∃ ws, List.lookup (g.cells x y).terrain freqs = some ws ∧
        sum_weights ws = 0) :
    ∃ e, set_resources freqs fts tape k g = .error e := by
  unfold set_resources
  rw [if_neg (by simp [hfs])]
  dsimp only
  obtain ⟨e, he⟩ := set_resources_pass_error freqs tape
    (coords_list g.coordinate_width g.coordinate_height) k g
    ⟨(x, y), (mem_coords_list _ _ _ _).mpr ⟨hx, hy⟩, hbad⟩
  rw [he]
  exact ⟨e, rfl⟩

theorem C3_missing_entry_errors_witness :
    ((GridM.mk 1 1 "g" false
        (fun x y => { blank_cell x y with terrain := "swamp" })).from_save = false ∧
      (0 : Nat) < 1 ∧
      List.lookup ((GridM.mk 1 1 "g" false
        (fun x y => { blank_cell x y with terrain := "swamp" })).cells 0 0).terrain
        ([] : List (String × List (String × Nat))) = none) ∧
    ∃ e, set_resources [] [] (fun _ => 0) 0
      (GridM.mk 1 1 "g" false
        (fun x y => { blank_cell x y with terrain := "swamp" })) = .error e :=
  ⟨⟨rfl, by decide, rfl⟩,
    C3_missing_entry_errors [] [] (fun _ => 0) 0
      (GridM.mk 1 1 "g" false
        (fun x y => { blank_cell x y with terrain := "swamp" }))
      0 0 rfl (by decide) (by decide) (Or.inl rfl)⟩

/-- C5: for a non-loaded grid whose every cell terrain has a positive total
weight entry in the frequency table, set_resources succeeds and assigns each
cell the resource of the first entry of its cumulative list whose cumulative
weight strictly exceeds the draw taken at that cell, where the draw is the
value of the cell's own tape read (the cell at x, y reads tape position
k + x * height + y, one randrange call per cell in flat order) reduced into
the interval from zero to the total weight; the selection equals the entry
at select_idx of the same draw, and for every weight list the number of
draws in that interval selecting entry i equals the weight of entry i, so
given the uniform draw each resource is selected with probability its
weight over the total. -/
theorem C5_weighted_resources (freqs : List (String × List (String × Nat)))
    (fts : List (String × (CellData → Bool))) (tape : Tape) (k : Nat)
    (g : GridM) (hfs : g.from_save = false)
    (hgood : ∀ x y, x < g.coordinate_width → y < g.coordinate_height →
      ∃ ws, List.lookup (g.cells x y).terrain freqs = some ws ∧
        0 < sum_weights ws) :
    (∃ g2 k2, set_resources freqs fts tape k g = .ok (g2, k2) ∧
      ∀ x y, x < g.coordinate_width → y < g.coordinate_height →
        ∃ ws, List.lookup (g.cells x y).terrain freqs = some ws ∧
          0 < sum_weights ws ∧
          ∃ e, select_resource (cumulate ws 0)
              (tape (k + (x * g.coordinate_height + y)) % sum_weights ws) =
            some e ∧
          (g2.cells x y).resource = e.1) ∧
    (∀ (lst : List (String × Nat)) (draw : Nat),
      select_resource lst draw = lst.get? (select_idx lst draw)) ∧
    (∀ (ws : List (String × Nat)) (i : Nat) (hi : i < ws.length),
      ((Finset.range (sum_weights ws)).filter
        (fun draw => select_idx (cumulate ws 0) draw = i)).card =
        (ws.get ⟨i, hi⟩).2) := by
  refine ⟨?_, fun lst draw => select_resource_get lst draw, ?_⟩
  · unfold set_resources
    rw [if_neg (by simp [hfs])]
    dsimp only
    obtain ⟨g2, heq, hcw, hch, hout, hterr, hidx⟩ :=
      set_resources_pass_ok freqs tape
        (coords_list g.coordinate_width g.coordinate_height) k g
        (coords_list_nodup _ _)
        (fun c hc => hgood c.1 c.2
          (((mem_coords_list _ _ _ _).mp hc).1)
          (((mem_coords_list _ _ _ _).mp hc).2))
    rw [heq]
    refine ⟨generate_terrain_features fts g2, _, rfl, ?_⟩
    intro x y hx hy
    have hb : x * g.coordinate_height + y <
        g.coordinate_width * g.coordinate_height := by
      have h1 : x * g.coordinate_height + y <
          (x + 1) * g.coordinate_height := by
        rw [Nat.succ_mul]
        omega
      have h2 : (x + 1) * g.coordinate_height ≤
          g.coordinate_width * g.coordinate_height :=
        Nat.mul_le_mul_right _ hx
      omega
    have hlen : x * g.coordinate_height + y <
        (coords_list g.coordinate_width g.coordinate_height).length := by
      rw [coords_list_length]
      exact hb
    obtain ⟨ws, hlf, hpos, e, he, hres⟩ := hidx
      (x * g.coordinate_height + y) (x, y) hlen
      (coords_list_getq _ _ x y hx hy)
    exact ⟨ws, hlf, hpos, e, he,
      by rw [generate_terrain_features_resource]; exact hres⟩
  · intro ws i hi
    have h := select_idx_count ws 0 i hi
    rw [Finset.range_eq_Ico]
    rw [show (0 : Nat) + sum_weights ws = sum_weights ws from by omega] at h
    exact h

theorem C5_weighted_resources_witness :
    ((GridM.mk 1 1 "g" false
        (fun x y => { blank_cell x y with terrain := "swamp" })).from_save =
      false) ∧
    (∃ g2 k2, set_resources [("swamp", [("none", 3), ("gold", 2)])] []
        (fun _ => 0) 0
        (GridM.mk 1 1 "g" false
          (fun x y => { blank_cell x y with terrain := "swamp" })) =
        .ok (g2, k2) ∧
      ∀ x y, x < (GridM.mk 1 1 "g" false
          (fun x y => { blank_cell x y with terrain := "swamp" })).coordinate_width →
        y < (GridM.mk 1 1 "g" false
          (fun x y => { blank_cell x y with terrain := "swamp" })).coordinate_height →
        ∃ ws, List.lookup ((GridM.mk 1 1 "g" false
            (fun x y => { blank_cell x y with terrain := "swamp" })).cells x y).terrain
            [("swamp", [("none", 3), ("gold", 2)])] = some ws ∧
          0 < sum_weights ws ∧
          ∃ e, select_resource (cumulate ws 0) (0 % sum_weights ws) = some e ∧
            (g2.cells x y).resource = e.1) :=
  ⟨rfl,
    (C5_weighted_resources [("swamp", [("none", 3), ("gold", 2)])] []
      (fun _ => 0) 0
      (GridM.mk 1 1 "g" false
        (fun x y => { blank_cell x y with terrain := "swamp" })) rfl
      (fun x y _ _ => ⟨[("none", 3), ("gold", 2)], rfl, by decide⟩)).1⟩

/- Save and load lemmas: placing every saved record at its coordinates
recovers exactly the cell whose record it is. -/

theorem last_match_acc (a b : Nat) :
    ∀ (records : List CellRecord) (acc : Option CellRecord),
      records.foldl (fun acc2 r =>
        if a = r.cx ∧ b = r.cy then some r else acc2) acc =
      match records.foldl (fun acc2 r =>
        if a = r.cx ∧ b = r.cy then some r else acc2) none with
      | some r => some r
      | none => acc := by
  intro records
  induction records with
  | nil => intro acc; rfl
  | cons r rest ih =>
      intro acc
      simp only [List.foldl_cons]
      rw [ih (if a = r.cx ∧ b = r.cy then some r else acc),
        ih (if a = r.cx ∧ b = r.cy then some r else none)]
      rcases hfold : rest.foldl (fun acc2 r =>
          if a = r.cx ∧ b = r.cy then some r else acc2) none with _ | r2
      · rw [hfold]
        dsimp only
        by_cases hc : a = r.cx ∧ b = r.cy
        · rw [if_pos hc, if_pos hc]
        · rw [if_neg hc, if_neg hc]
      · rw [hfold]

theorem fold_match_none (a b : Nat) :
    ∀ (records : List CellRecord) (acc : Option CellRecord),
      (∀ r ∈ records, ¬(a = r.cx ∧ b = r.cy)) →
      records.foldl (fun acc2 r =>
        if a = r.cx ∧ b = r.cy then some r else acc2) acc = acc := by
  intro records
  induction records with
  | nil => intro acc _; rfl
  | cons r rest ih =>
      intro acc hno
      simp only [List.foldl_cons]
      rw [if_neg (hno r (List.mem_cons_self r rest))]
      exact ih acc (fun r2 h2 => hno r2 (List.mem_cons_of_mem r h2))

theorem fold_match_some (a b : Nat) (v : CellRecord) :
    ∀ (records : List CellRecord) (acc : Option CellRecord),
      (∃ r ∈ records, a = r.cx ∧ b = r.cy) →
      (∀ r ∈ records, (a = r.cx ∧ b = r.cy) → r = v) →
      records.foldl (fun acc2 r =>
        if a = r.cx ∧ b = r.cy then some r else acc2) acc = some v := by
  intro records
  induction records with
  | nil =>
      intro acc hex _
      obtain ⟨r, hr, _⟩ := hex
      exact absurd hr (by simp)
  | cons r rest ih =>
      intro acc hex huniq
      simp only [List.foldl_cons]
      by_cases hrest : ∃ r2 ∈ rest, a = r2.cx ∧ b = r2.cy
      · exact ih _ hrest
          (fun r2 h2 hm => huniq r2 (List.mem_cons_of_mem r h2) hm)
      · have hhead : a = r.cx ∧ b = r.cy := by
          obtain ⟨r0, hr0, hm0⟩ := hex
          rcases List.mem_cons.mp hr0 with h1 | h1
          · exact h1 ▸ hm0
          · exact absurd ⟨r0, h1, hm0⟩ hrest
        rw [if_pos hhead]
        rw [fold_match_none a b rest (some r) (by
          push_neg at hrest
          exact fun r2 h2 hm => (hrest r2 h2) hm.1 hm.2)]
        rw [huniq r (List.mem_cons_self r rest) hhead]

theorem load_fold_eval (a b : Nat) :
    ∀ (records : List CellRecord) (base : Nat → Nat → CellData),
      (records.foldl (fun cs r => fun a2 b2 =>
        if a2 = r.cx ∧ b2 = r.cy then cell_from_save r else cs a2 b2) base) a b =
      match records.foldl (fun acc2 r =>
        if a = r.cx ∧ b = r.cy then some r else acc2) none with
      | some r => cell_from_save r
      | none => base a b := by
  intro records
  induction records with
  | nil => intro base; rfl
  | cons r rest ih =>
      intro base
      simp only [List.foldl_cons]
      rw [ih (fun a2 b2 =>
        if a2 = r.cx ∧ b2 = r.cy then cell_from_save r else base a2 b2)]
      rw [last_match_acc a b rest (if a = r.cx ∧ b = r.cy then some r else none)]
      rcases hfold : rest.foldl (fun acc2 r =>
          if a = r.cx ∧ b = r.cy then some r else acc2) none with _ | r2
      · rw [hfold]
        dsimp only
        by_cases hc : a = r.cx ∧ b = r.cy
        · rw [if_pos hc, if_pos hc]
        · rw [if_neg hc, if_neg hc]
      · rw [hfold]

theorem set_cell_resource_save_dict (g : GridM) (x y : Nat) (v : String)
    (a b : Nat) :
    ((set_cell g x y { g.cells x y with resource := v }).cells a b).save_dict =
      (g.cells a b).save_dict := by
  rw [set_cell_eval]
  by_cases hab : a = x ∧ b = y
  · rw [if_pos hab, hab.1, hab.2]
  · rw [if_neg hab]

theorem resource_overwrite (cd : CellData) (v w : String) :
    ({ ({ cd with resource := v } : CellData) with resource := w} : CellData) =
      { cd with resource := w } := rfl

theorem loaded_cells_eval (g : GridM) (gt : String)
    (hcoh : ∀ a b, a < g.coordinate_width → b < g.coordinate_height →
      (g.cells a b).x = a ∧ (g.cells a b).y = b)
    (a b : Nat) (ha : a < g.coordinate_width) (hb : b < g.coordinate_height) :
    (load_cells g.coordinate_width g.coordinate_height gt
      (to_save_dict g).2).cells a b =
      cell_from_save (cell_to_save_dict (g.cells a b)) := by
  have h1 : (load_cells g.coordinate_width g.coordinate_height gt
      (to_save_dict g).2).cells a b =
      match (to_save_dict g).2.foldl (fun acc2 r =>
        if a = r.cx ∧ b = r.cy then some r else acc2) none with
      | some r => cell_from_save r
      | none => blank_cell a b :=
    load_fold_eval a b (to_save_dict g).2 (fun a2 b2 => blank_cell a2 b2)
  rw [h1]
  have h2 : (to_save_dict g).2.foldl (fun acc2 r =>
      if a = r.cx ∧ b = r.cy then some r else acc2) none =
      some (cell_to_save_dict (g.cells a b)) := by
    apply fold_match_some
    · refine ⟨cell_to_save_dict (g.cells a b), ?_, ?_⟩
      · exact List.mem_map.mpr
          ⟨(a, b), (mem_coords_list _ _ _ _).mpr ⟨ha, hb⟩, rfl⟩
      · exact ⟨(hcoh a b ha hb).1.symm, (hcoh a b ha hb).2.symm⟩
    · intro r hr hm
      obtain ⟨c, hcmem, hceq⟩ := List.mem_map.mp hr
      have hcb := (mem_coords_list g.coordinate_width g.coordinate_height
        c.1 c.2).mp hcmem
      have hx := (hcoh c.1 c.2 hcb.1 hcb.2).1
      have hy := (hcoh c.1 c.2 hcb.1 hcb.2).2
      subst hceq
      have hca : c.1 = a := by
        have := hm.1
        rw [show (cell_to_save_dict (g.cells c.1 c.2)).cx =
          (g.cells c.1 c.2).x from rfl] at this
        omega
      have hcb2 : c.2 = b := by
        have := hm.2
        rw [show (cell_to_save_dict (g.cells c.1 c.2)).cy =
          (g.cells c.1 c.2).y from rfl] at this
        omega
      rw [hca, hcb2]
  rw [h2]

theorem restore_pass_spec :
    ∀ (L : List (Nat × Nat)) (g : GridM),
      (∀ c ∈ L, ∃ r, (g.cells c.1 c.2).save_dict = some r) →
      ∃ g2, restore_resources_pass L g = .ok g2 ∧
        g2.coordinate_width = g.coordinate_width ∧
        g2.coordinate_height = g.coordinate_height ∧
        (∀ a b, ¬(a, b) ∈ L → g2.cells a b = g.cells a b) ∧
        (∀ c ∈ L, ∃ r, (g.cells c.1 c.2).save_dict = some r ∧
          g2.cells c.1 c.2 = { g.cells c.1 c.2 with resource := r.resource }) := by
  intro L
  induction L with
  | nil =>
      intro g _
      exact ⟨g, rfl, rfl, rfl, fun a b _ => rfl,
        fun c hc => absurd hc (by simp)⟩
  | cons c L2 ih =>
      intro g hsave
      obtain ⟨r, hr⟩ := hsave c (List.mem_cons_self c L2)
      have hstep : restore_resources_pass (c :: L2) g =
          restore_resources_pass L2 (set_cell g c.1 c.2
            { g.cells c.1 c.2 with resource := r.resource }) := by
        simp only [restore_resources_pass]
        split
        · next heqn =>
            rw [heqn] at hr
            cases hr
        · next r1 heqs =>
            rw [heqs] at hr
            rw [Option.some.inj hr]
      rw [hstep]
      have hsd1 : ∀ a b, ((set_cell g c.1 c.2
          { g.cells c.1 c.2 with resource := r.resource }).cells a b).save_dict =
          (g.cells a b).save_dict :=
        fun a b => set_cell_resource_save_dict g c.1 c.2 r.resource a b
      obtain ⟨g2, heq2, hcw2, hch2, hout2, hcell2⟩ := ih
        (set_cell g c.1 c.2 { g.cells c.1 c.2 with resource := r.resource })
        (by
          intro c2 hc2
          obtain ⟨r2, hr2⟩ := hsave c2 (List.mem_cons_of_mem c hc2)
          exact ⟨r2, by rw [hsd1]; exact hr2⟩)
      refine ⟨g2, heq2, hcw2, hch2, ?_, ?_⟩
      · intro a b hab
        rw [List.mem_cons] at hab
        push_neg at hab
        rw [hout2 a b hab.2, set_cell_eval,
          if_neg (by
            intro hc2
            exact hab.1 (by rw [hc2.1, hc2.2]))]
      · intro c2 hc2
        rcases List.mem_cons.mp hc2 with h1 | h1
        · subst h1
          by_cases hmem : c2 ∈ L2
          · obtain ⟨r2, hr2, heqc⟩ := hcell2 c2 hmem
            rw [hsd1] at hr2
            have hrr : r2 = r := by
              rw [hr] at hr2
              exact (Option.some.inj hr2).symm
            subst hrr
            refine ⟨r2, hr, ?_⟩
            rw [heqc, set_cell_eval, if_pos ⟨rfl, rfl⟩, resource_overwrite]
          · have hsame : g2.cells c2.1 c2.2 = (set_cell g c2.1 c2.2
                { g.cells c2.1 c2.2 with resource := r.resource }).cells c2.1 c2.2 :=
              hout2 c2.1 c2.2 hmem
            refine ⟨r, hr, ?_⟩
            rw [hsame, set_cell_eval, if_pos ⟨rfl, rfl⟩]
        · obtain ⟨r2, hr2, heqc⟩ := hcell2 c2 h1
          rw [hsd1] at hr2
          refine ⟨r2, hr2, ?_⟩
          rw [heqc, set_cell_eval]
          by_cases hc2 : c2.1 = c.1 ∧ c2.2 = c.2
          · rw [if_pos hc2, hc2.1, hc2.2, resource_overwrite]
          · rw [if_neg hc2]

/-- C4: loading the save representation produced by to_save_dict
(constructing a from_save grid from the emitted cell list via load_cells and
then running the from_save branch of set_resources) yields a grid whose
every cell agrees with the corresponding cell of the original grid in
terrain, resource, parameter values and feature set, with coordinates and
the structurally recomputed adjacency matching. -/
theorem C4_save_load_roundtrip (g : GridM)
    (freqs : List (String × List (String × Nat)))
    (fts : List (String × (CellData → Bool))) (tape : Tape) (k : Nat)
    (hcoh : ∀ a b, a < g.coordinate_width → b < g.coordinate_height →
      (g.cells a b).x = a ∧ (g.cells a b).y = b) :
    ∃ g2 k2, set_resources freqs fts tape k
        (load_cells g.coordinate_width g.coordinate_height g.grid_type
          (to_save_dict g).2) = .ok (g2, k2) ∧
      g2.coordinate_width = g.coordinate_width ∧
      g2.coordinate_height = g.coordinate_height ∧
      ∀ a b, a < g.coordinate_width → b < g.coordinate_height →
        (g2.cells a b).terrain = (g.cells a b).terrain ∧
        (g2.cells a b).resource = (g.cells a b).resource ∧
        (g2.cells a b).parameters = (g.cells a b).parameters ∧
        (g2.cells a b).features = (g.cells a b).features ∧
        (g2.cells a b).x = a ∧ (g2.cells a b).y = b ∧
        adjacent_coords g2.coordinate_width g2.coordinate_height a b =
          adjacent_coords g.coordinate_width g.coordinate_height a b := by
  have hload : ∀ a b, a < g.coordinate_width → b < g.coordinate_height →
      (load_cells g.coordinate_width g.coordinate_height g.grid_type
        (to_save_dict g).2).cells a b =
      cell_from_save (cell_to_save_dict (g.cells a b)) :=
    fun a b ha hb => loaded_cells_eval g g.grid_type hcoh a b ha hb
  unfold set_resources
  rw [if_pos (show (load_cells g.coordinate_width g.coordinate_height
    g.grid_type (to_save_dict g).2).from_save = true from rfl)]
  obtain ⟨g2, heq2, hcw2, hch2, hout2, hcell2⟩ := restore_pass_spec
    (coords_list
      (load_cells g.coordinate_width g.coordinate_height g.grid_type
        (to_save_dict g).2).coordinate_width
      (load_cells g.coordinate_width g.coordinate_height g.grid_type
        (to_save_dict g).2).coordinate_height)
    (load_cells g.coordinate_width g.coordinate_height g.grid_type
      (to_save_dict g).2)
    (by
      intro c hc
      have hb := (mem_coords_list _ _ c.1 c.2).mp hc
      rw [hload c.1 c.2 hb.1 hb.2]
      exact ⟨cell_to_save_dict (g.cells c.1 c.2), rfl⟩)
  rw [heq2]
  have hcw3 : g2.coordinate_width = g.coordinate_width := hcw2
  have hch3 : g2.coordinate_height = g.coordinate_height := hch2
  refine ⟨g2, k, rfl, hcw3, hch3, ?_⟩
  intro a b ha hb
  have hmem : (a, b) ∈ coords_list
      (load_cells g.coordinate_width g.coordinate_height g.grid_type
        (to_save_dict g).2).coordinate_width
      (load_cells g.coordinate_width g.coordinate_height g.grid_type
        (to_save_dict g).2).coordinate_height :=
    (mem_coords_list _ _ _ _).mpr ⟨ha, hb⟩
  obtain ⟨r2, hr2, hcellq⟩ := hcell2 (a, b) hmem
  rw [hload a b ha hb] at hr2 hcellq
  have hrr : r2 = cell_to_save_dict (g.cells a b) :=
    (Option.some.inj hr2).symm
  subst hrr
  refine ⟨(by rw [hcellq]; rfl), (by rw [hcellq]; rfl), (by rw [hcellq]; rfl),
    (by rw [hcellq]; rfl), ?_, ?_, ?_⟩
  · rw [hcellq]
    exact (hcoh a b ha hb).1
  · rw [hcellq]
    exact (hcoh a b ha hb).2
  · rw [hcw3, hch3]

theorem C4_save_load_roundtrip_witness :
    (∀ a b, a < (create_grid 2 2 "earth_grid").coordinate_width →
      b < (create_grid 2 2 "earth_grid").coordinate_height →
      ((create_grid 2 2 "earth_grid").cells a b).x = a ∧
      ((create_grid 2 2 "earth_grid").cells a b).y = b) ∧
    ∃ g2 k2, set_resources [] [] (fun _ => 0) 0
        (load_cells (create_grid 2 2 "earth_grid").coordinate_width
          (create_grid 2 2 "earth_grid").coordinate_height
          (create_grid 2 2 "earth_grid").grid_type
          (to_save_dict (create_grid 2 2 "earth_grid")).2) = .ok (g2, k2) ∧
      g2.coordinate_width = (create_grid 2 2 "earth_grid").coordinate_width ∧
      g2.coordinate_height = (create_grid 2 2 "earth_grid").coordinate_height ∧
      ∀ a b, a < (create_grid 2 2 "earth_grid").coordinate_width →
        b < (create_grid 2 2 "earth_grid").coordinate_height →
        (g2.cells a b).terrain =
          ((create_grid 2 2 "earth_grid").cells a b).terrain ∧
        (g2.cells a b).resource =
          ((create_grid 2 2 "earth_grid").cells a b).resource ∧
        (g2.cells a b).parameters =
          ((create_grid 2 2 "earth_grid").cells a b).parameters ∧
        (g2.cells a b).features =
          ((create_grid 2 2 "earth_grid").cells a b).features ∧
        (g2.cells a b).x = a ∧ (g2.cells a b).y = b ∧
        adjacent_coords g2.coordinate_width g2.coordinate_height a b =
          adjacent_coords (create_grid 2 2 "earth_grid").coordinate_width
            (create_grid 2 2 "earth_grid").coordinate_height a b :=
  ⟨fun a b _ _ => ⟨rfl, rfl⟩,
    C4_save_load_roundtrip (create_grid 2 2 "earth_grid") [] [] (fun _ => 0) 0
      (fun a b _ _ => ⟨rfl, rfl⟩)⟩
